import Mathlib

/-!
Verification of the aegnix-platform-abi-service broker core.

Shallow embedding of the Python source of the broker into Lean 4:

* `sessions.py`           → `Session`, `RefreshToken`, `SessStore` and the
  `SessionManager` operations (`touch`, `assertSessionActive`,
  `revokeSession`, `expireSession`, `validateRefreshToken`,
  `rotateRefreshToken`).  SQL tables become lists of rows; an `UPDATE ...
  WHERE` becomes a `List.map` guarded on the key, an `INSERT` an append,
  a `SELECT ... fetch_one` a `List.find?`.
* `runtime_registry.py`   → `Registry` with the three partitions `live`,
  `stale`, `dead` as association lists (Python dicts have unique keys;
  the association-list well-formedness `regWF` captures exactly the
  states a trio of disjoint dicts can denote), plus `Registry.heartbeat`
  and `Registry.sweep`.
* `routes/emit.py`        → `emitMessage`, the ordered emit checkpoint.
  The external collaborators (`aegnix_abi.keyring`, `aegnix_abi.policy`,
  `aegnix_core.crypto`, JWT decoding) are not under the embedded source
  tree; lookups are modelled from the spec keyring contract and the
  policy / signature / token-verification deciders are taken as function
  parameters, exactly as the route consumes their boolean verdicts.
* `routes/subscribe.py`   → `subscribeTopic`.
* `routes/register.py`    → `verifyResponseRoute` (the `/verify` handler).
* `abi_state.py`, `bus.py`, `reflection/sink.py`, `main.py` →
  the reflection-record data-flow model and the startup statement model.

Clock values are `Int` seconds (Python uses epoch floats; nothing in the
verified logic depends on sub-second resolution, and `now - last_seen`
may be negative, which `Int` represents faithfully).
-/

namespace Aegnix

/-! ## Association lists standing for Python dicts -/

/-- A Python dict keyed by strings, as an association list.  All dict
states reachable in the source have unique keys; theorems that need
that fact assume `alNodup`. -/
abbrev AList (α : Type) : Type := List (String × α)

/-- Source `d.get(k)` / `d[k]` lookup: the first binding of `k`. -/
def alGet {α : Type} (k : String) : AList α → Option α
  | [] => none
  | kv :: t => if kv.1 = k then some kv.2 else alGet k t

/-- Source `k in d` membership test. -/
def alHasKey {α : Type} (k : String) (l : AList α) : Bool :=
  (alGet k l).isSome

/-- Source `d[k] = v` assignment: replace the binding in place, else append. -/
def alInsert {α : Type} (k : String) (v : α) : AList α → AList α
  | [] => [(k, v)]
  | kv :: t => if kv.1 = k then (k, v) :: t else kv :: alInsert k v t

/-- Source `d.pop(k, None)`: drop the binding of `k`. -/
def alPop {α : Type} (k : String) (l : AList α) : AList α :=
  l.filter (fun kv => !(kv.1 == k))

/-- Key uniqueness: the representation invariant of a Python dict. -/
def alNodup {α : Type} : AList α → Bool
  | [] => true
  | kv :: t => !alHasKey kv.1 t && alNodup t

/-- No key of `a` is a key of `b`. -/
def alDisj {α β : Type} (a : AList α) (b : AList β) : Bool :=
  a.all (fun kv => !alHasKey kv.1 b)

/-! ## `sessions.py` — session and refresh-token lifecycle -/

/-- Session status strings of `sessions.py`. -/
inductive SessStatus : Type
  | ACTIVE
  | STALE
  | REVOKED
  | EXPIRED
  deriving DecidableEq, Repr

/-- A row of the `sessions` table (`Session` dataclass). -/
structure Session where
  id : String
  subject : String
  pubkeyFpr : String
  createdAt : Int
  expiresAt : Int
  lastSeenAt : Int
  status : SessStatus
  maxIdleSec : Int
  deriving DecidableEq, Repr

/-- A row of the `refresh_tokens` table (`RefreshToken` dataclass).  The
source stores `revoked` as the integers 0/1; here it is a `Bool`. -/
structure RefreshToken where
  id : String
  sessionId : String
  tokenHash : String
  createdAt : Int
  expiresAt : Int
  revoked : Bool
  rotation : Int
  reason : Option String
  deriving DecidableEq, Repr

/-- The SQLite store owned by `SessionManager`: both tables. -/
structure SessStore where
  sessions : List Session
  refreshTokens : List RefreshToken
  deriving DecidableEq, Repr

/-- Source `SELECT * FROM sessions WHERE id=?` (`get_session`). -/
def getSession (st : SessStore) (sid : String) : Option Session :=
  st.sessions.find? (fun s => s.id == sid)

/-- Source `SELECT * FROM refresh_tokens WHERE id=?` (`get_refresh_token`). -/
def getRefreshToken (st : SessStore) (rid : String) : Option RefreshToken :=
  st.refreshTokens.find? (fun t => t.id == rid)

/-- Source `touch(sid)`: `UPDATE sessions SET last_seen_at=? WHERE id=?`. -/
def touch (st : SessStore) (now : Int) (sid : String) : SessStore :=
  { st with sessions :=
      st.sessions.map (fun s => if s.id = sid then { s with lastSeenAt := now } else s) }

/-- Source `UPDATE refresh_tokens SET revoked=1, reason=? WHERE session_id=?`. -/
def revokeTokensOfSession (st : SessStore) (sid : String) (reason : String) : SessStore :=
  { st with refreshTokens :=
      st.refreshTokens.map (fun t =>
        if t.sessionId = sid then { t with revoked := true, reason := some reason } else t) }

/-- Source `revoke_session(sid, reason)`: set status `REVOKED`, cascade-revoke
the refresh tokens of the session. -/
def revokeSession (st : SessStore) (sid : String) (reason : String) : SessStore :=
  let st1 : SessStore :=
    { st with sessions :=
        st.sessions.map (fun s => if s.id = sid then { s with status := .REVOKED } else s) }
  revokeTokensOfSession st1 sid reason

/-- Source `_expire_session(sid, reason)`: set status `EXPIRED`, cascade-revoke
the refresh tokens of the session. -/
def expireSession (st : SessStore) (sid : String) (reason : String) : SessStore :=
  let st1 : SessStore :=
    { st with sessions :=
        st.sessions.map (fun s => if s.id = sid then { s with status := .EXPIRED } else s) }
  revokeTokensOfSession st1 sid reason

/-- Source `revoke_refresh_token(rid, reason)`. -/
def revokeRefreshToken (st : SessStore) (rid : String) (reason : String) : SessStore :=
  { st with refreshTokens :=
      st.refreshTokens.map (fun t =>
        if t.id = rid then { t with revoked := true, reason := some reason } else t) }

/-- Source `assert_session_active(sid)`.  The Python raises `ValueError`; here
the first component is `some reason` when it raises, and the second is
the store after the mutation an idle/hard expiry performs before
raising. -/
def assertSessionActive (st : SessStore) (now : Int) (sid : String) :
    Option String × SessStore :=
  match getSession st sid with
  | none => (some "not_found", st)
  | some s =>
    if s.status = .REVOKED ∨ s.status = .EXPIRED then (some "inactive", st)
    else if s.maxIdleSec < now - s.lastSeenAt then
      (some "idle_timeout", expireSession st sid "idle_timeout")
    else if s.expiresAt < now then
      (some "session_lifetime", expireSession st sid "session_lifetime")
    else (none, st)

/-- Source `validate_refresh_token(session_id, raw)`: the raw token enters only
through its SHA-256 digest, so the model takes the digest `tokenHash`
directly.  Returns the token when valid; on a stored-but-expired token
it auto-revokes with reason `expired` and returns none. -/
def validateRefreshToken (st : SessStore) (now : Int) (sid : String) (tokenHash : String) :
    Option RefreshToken × SessStore :=
  match st.refreshTokens.find?
      (fun t => t.sessionId == sid && t.tokenHash == tokenHash && !t.revoked) with
  | none => (none, st)
  | some t =>
    if t.expiresAt < now then (none, revokeRefreshToken st t.id "expired")
    else (some t, st)

/-- Source `rotate_refresh_token(token)`: revoke the old token with reason
`rotation`, insert one fresh row with `rotation + 1` and
`expires_at = now + token.expires_at - token.created_at`, and return
`get_refresh_token(new_rid)`.  The `uuid4` draws for the new raw token
and row id are nondeterminism made explicit as the arguments
`newHash` (the stored SHA-256 of the new raw) and `newRid`. -/
def rotateRefreshToken (st : SessStore) (tok : RefreshToken)
    (newRid newHash : String) (now : Int) : Option RefreshToken × SessStore :=
  let st1 := revokeRefreshToken st tok.id "rotation"
  let newRec : RefreshToken :=
    { id := newRid
      sessionId := tok.sessionId
      tokenHash := newHash
      createdAt := now
      expiresAt := now + tok.expiresAt - tok.createdAt
      revoked := false
      rotation := tok.rotation + 1
      reason := none }
  let st2 : SessStore := { st1 with refreshTokens := st1.refreshTokens ++ [newRec] }
  (getRefreshToken st2 newRid, st2)

/-- The `SessionManager` operations that mutate the store, as one step
type; the arguments carry the inputs of each operation (and, for rotation,
the explicit random draws). -/
inductive SessOp : Type
  | touchOp (now : Int) (sid : String)
  | assertActiveOp (now : Int) (sid : String)
  | revokeSessionOp (sid : String) (reason : String)
  | expireSessionOp (sid : String) (reason : String)
  | revokeRefreshOp (rid : String) (reason : String)
  | validateRefreshOp (now : Int) (sid : String) (tokenHash : String)
  | rotateRefreshOp (tok : RefreshToken) (newRid newHash : String) (now : Int)
  deriving Repr

/-- Run one operation, keeping only the resulting store. -/
def applySessOp (st : SessStore) : SessOp → SessStore
  | .touchOp now sid => touch st now sid
  | .assertActiveOp now sid => (assertSessionActive st now sid).2
  | .revokeSessionOp sid reason => revokeSession st sid reason
  | .expireSessionOp sid reason => expireSession st sid reason
  | .revokeRefreshOp rid reason => revokeRefreshToken st rid reason
  | .validateRefreshOp now sid h => (validateRefreshToken st now sid h).2
  | .rotateRefreshOp tok newRid newHash now => (rotateRefreshToken st tok newRid newHash now).2

/-- Run a sequence of operations. -/
def applySessOps (st : SessStore) (ops : List SessOp) : SessStore :=
  ops.foldl applySessOp st

/-- The status of session `sid` in the store, if present. -/
def sessionStatusOf (st : SessStore) (sid : String) : Option SessStatus :=
  (getSession st sid).map (fun s => s.status)

/-! ## `runtime_registry.py` — live / stale / dead liveness tracking -/

/-- A runtime record (the per-AE dict built by `heartbeat`).  The opaque
`meta` dict is dropped: no verified property reads it. -/
structure RRec where
  firstSeen : Int
  lastSeen : Int
  sessionId : Option String
  lastSource : String
  lastIntent : Option String
  lastSubject : Option String
  quality : String
  heartbeatCount : Nat
  deriving DecidableEq, Repr

/-- The `RuntimeRegistry` state: thresholds and the three partitions. -/
structure Registry where
  staleAfter : Int
  deadAfter : Int
  live : AList RRec
  stale : AList RRec
  dead : AList RRec
  deriving DecidableEq, Repr

/-- The payload `_emit_transition` hands to the transition hook (record
fields beyond these four are carried in `rc`). -/
structure TransitionEvt where
  aeId : String
  fromState : String
  toState : String
  reason : String
  rc : RRec
  deriving DecidableEq, Repr

/-- Source `RuntimeRegistry.heartbeat`: find the previous partition (live, then
stale, then dead, else absent), rebuild the record, install it in
`live`, pop it from `stale` and `dead`, and emit a `heartbeat`
transition when the previous partition was not `live`. -/
def Registry.heartbeat (r : Registry) (now : Int) (aeId : String)
    (sessionId : Option String) (source : String)
    (intent subject : Option String) (quality : String) :
    Registry × List TransitionEvt :=
  let prev : String × Option RRec :=
    match alGet aeId r.live with
    | some rc => ("live", some rc)
    | none =>
      match alGet aeId r.stale with
      | some rc => ("stale", some rc)
      | none =>
        match alGet aeId r.dead with
        | some rc => ("dead", some rc)
        | none => ("none", none)
  let rc0 : RRec :=
    { firstSeen := match prev.2 with | some o => o.firstSeen | none => now
      lastSeen := now
      sessionId := sessionId
      lastSource := source
      lastIntent := intent
      lastSubject := subject
      quality := quality
      heartbeatCount := (match prev.2 with | some o => o.heartbeatCount | none => 0) + 1 }
  let r1 : Registry :=
    { r with
      live := alInsert aeId rc0 r.live
      stale := alPop aeId r.stale
      dead := alPop aeId r.dead }
  let evts : List TransitionEvt :=
    if prev.1 ≠ "live" then [⟨aeId, prev.1, "live", "heartbeat", rc0⟩] else []
  (r1, evts)

/-- Source `sweep`, live loop, first branch: the live entries with
`now - last_seen ≥ dead_after`, moved to `dead`. -/
def sweepLiveToDead (r : Registry) (now : Int) : AList RRec :=
  r.live.filter (fun kv => decide (r.deadAfter ≤ now - kv.2.lastSeen))

/-- Source `sweep`, live loop, `elif` branch: the live entries not moved to
`dead` with `now - last_seen ≥ stale_after`, moved to `stale`. -/
def sweepLiveToStale (r : Registry) (now : Int) : AList RRec :=
  r.live.filter (fun kv =>
    !decide (r.deadAfter ≤ now - kv.2.lastSeen) &&
    decide (r.staleAfter ≤ now - kv.2.lastSeen))

/-- Source `sweep`, live loop: the entries neither branch moved. -/
def sweepLiveKeep (r : Registry) (now : Int) : AList RRec :=
  r.live.filter (fun kv =>
    !decide (r.deadAfter ≤ now - kv.2.lastSeen) &&
    !decide (r.staleAfter ≤ now - kv.2.lastSeen))

/-- The stale map as the second loop of `sweep` reads it: the source
re-reads `self.stale`, which already holds the entries the live loop
just demoted (dict insertion appended them). -/
def sweepStaleMid (r : Registry) (now : Int) : AList RRec :=
  r.stale ++ sweepLiveToStale r now

/-- Source `sweep`, stale loop: the entries with `now - last_seen ≥
dead_after`, moved to `dead`. -/
def sweepStaleToDead (r : Registry) (now : Int) : AList RRec :=
  (sweepStaleMid r now).filter (fun kv => decide (r.deadAfter ≤ now - kv.2.lastSeen))

/-- Source `sweep`, stale loop: the entries it left in `stale`. -/
def sweepStaleKeep (r : Registry) (now : Int) : AList RRec :=
  (sweepStaleMid r now).filter (fun kv => !decide (r.deadAfter ≤ now - kv.2.lastSeen))

/-- Source `RuntimeRegistry.sweep`: one pass at time `now`.  Both loops iterate
a snapshot of distinct dict keys and each iteration moves only its own
key, so the live pass is the three-way partition of `live` by age and
the stale pass filters the stale map as it stands after the live pass.
Demotions are emitted after both loops: the `live → stale` moves first,
then the accumulated `dead` moves in loop order (the live loop moves, then
the stale loop moves). -/
def Registry.sweep (r : Registry) (now : Int) : Registry × List TransitionEvt :=
  ({ r with
     live := sweepLiveKeep r now
     stale := sweepStaleKeep r now
     dead := r.dead ++ sweepLiveToDead r now ++ sweepStaleToDead r now },
   (sweepLiveToStale r now).map (fun kv =>
     (⟨kv.1, "live", "stale", "sweep_stale", kv.2⟩ : TransitionEvt)) ++
   ((sweepLiveToDead r now).map (fun kv =>
     (⟨kv.1, "live", "dead", "sweep_dead", kv.2⟩ : TransitionEvt)) ++
    (sweepStaleToDead r now).map (fun kv =>
     (⟨kv.1, "stale", "dead", "sweep_dead", kv.2⟩ : TransitionEvt))))

/-- Dict representability and partition disjointness of a registry: each
map has unique keys and no `ae_id` lives in two partitions. -/
def regWF (r : Registry) : Bool :=
  alNodup r.live && alNodup r.stale && alNodup r.dead &&
  alDisj r.live r.stale && alDisj r.live r.dead && alDisj r.stale r.dead

/-! ## `routes/emit.py` — the emit checkpoint -/

/-- A record of `aegnix_abi.keyring.ABIKeyring` as the emit route reads
it: `ae_id`, base64 public key, fingerprint, roles string, trust
status.  Modelled from the spec: the keyring package is not under the
embedded source tree; §4.1 gives `ae_id` as primary key and the
fingerprint as secondary lookup key. -/
structure KeyRec where
  aeId : String
  pubkeyB64 : String
  fpr : String
  roles : String
  status : String
  deriving DecidableEq, Repr

/-- Source `keyring.get_by_aeid`. Modelled from the spec: lookup on the
primary key `ae_id`. -/
def getByAeid (kr : List KeyRec) (aeId : String) : Option KeyRec :=
  kr.find? (fun rc => rc.aeId == aeId)

/-- Source `keyring.get_by_fpr`. Modelled from the spec: secondary lookup on
the stored fingerprint. -/
def getByFpr (kr : List KeyRec) (fpr : String) : Option KeyRec :=
  kr.find? (fun rc => rc.fpr == fpr)

/-- The envelope as the emit route consumes it (`aegnix_core.envelope`;
fields from the spec wire format).  `payload` and `labels` pass through
opaquely; `sig` stays base64 — decoding is folded into the signature
decider the route is parameterized by. -/
structure Envelope where
  producer : String
  subject : String
  payload : String
  labels : String
  keyId : Option String
  sig : String
  ts : Int
  deriving DecidableEq, Repr

/-- JWT claims as `verify_token` returns them and the route reads them:
`claims.get("sub")`, `claims.get("sid")`, `claims.get("roles", "")`. -/
structure Claims where
  sub : String
  sid : Option String
  roles : String
  deriving DecidableEq, Repr

/-- The outcome of the emit route: an `HTTPException` or the accepted
receipt `{status: "accepted", subject, ts}`. -/
inductive EmitResult : Type
  | httpError (code : Nat) (detail : String)
  | accepted (subject : String) (ts : Int)
  deriving DecidableEq, Repr

/-- Whether the request was accepted. -/
def EmitResult.isAccepted : EmitResult → Bool
  | .accepted _ _ => true
  | .httpError _ _ => false

/-- Python truthiness of an optional string (`None` and `""` are falsy),
used by `if not rec and env.key_id:`. -/
def optTruthy : Option String → Bool
  | none => false
  | some s => !(s == "")

/-- Source `effective_roles = (rec.roles or roles)`: Python `or` on the two
role strings. -/
def effectiveRoles (recRoles tokenRoles : String) : String :=
  if recRoles == "" then tokenRoles else recRoles

/-- The record lookup of the route: `get_by_aeid(env.producer)`, falling back
to `get_by_fpr(env.key_id)` when that misses and `env.key_id` is
truthy. -/
def lookupProducerRec (kr : List KeyRec) (env : Envelope) : Option KeyRec :=
  match getByAeid kr env.producer with
  | some rc => some rc
  | none => if optTruthy env.keyId then getByFpr kr (env.keyId.getD "") else none

/-- Everything after the first space of a character list. -/
def dropThroughSpace : List Char → List Char
  | [] => []
  | c :: t => if c = ' ' then t else dropThroughSpace t

/-- Source `authorization.split(" ", 1)[1]`: everything after the first
space. -/
def afterFirstSpace (a : String) : String :=
  String.mk (dropThroughSpace a.data)

/-- Stage 1 of the route: require a header whose lowercase form starts
with `bearer ` (`authorization.lower().startswith("bearer ")`) and
take the token after the first space. -/
def bearerTokenOf (authorization : Option String) : Option String :=
  match authorization with
  | none => none
  | some a =>
    if (a.data.map Char.toLower).take 7 = "bearer ".data then some (afterFirstSpace a)
    else none

/-- Source `emit_message`, the ordered checkpoint of `routes/emit.py`.

The externally supplied deciders are parameters: `verifyTok` is
`auth.verify_token` (an `HTTPException (code, detail)` on failure),
`canPublish` is `policy.can_publish`, and `ed25519Verify` is the
signature check over the public key of the record, the envelope signature
and the envelope signing bytes.  `envl = none` stands for an
`Envelope.from_dict` failure (caught as a generic exception, 500).
`keyringOpt = none` is the uninitialized-keyring guard.  The
best-effort stages after signature verification (heartbeat, audit
append, mesh dispatch, local fan-out) perform no control flow on the
success path and are modelled as not raising; the route then returns
the accepted receipt. -/
def emitMessage (authorization : Option String)
    (verifyTok : String → Except (Nat × String) Claims)
    (envl : Option Envelope)
    (keyringOpt : Option (List KeyRec))
    (canPublish : String → String → String → Bool)
    (ed25519Verify : String → String → Envelope → Bool)
    (now : Int) : EmitResult :=
  match bearerTokenOf authorization with
  | none => .httpError 401 "Missing bearer token"
  | some tok =>
    match verifyTok tok with
    | .error e => .httpError e.1 e.2
    | .ok claims =>
      match envl with
      | none => .httpError 500 "envelope decode failed"
      | some env =>
        if env.producer ≠ claims.sub then .httpError 403 "Producer mismatch with token"
        else
          match keyringOpt with
          | none => .httpError 500 "Keyring not initialized"
          | some kr =>
            match lookupProducerRec kr env with
            | none => .httpError 403 "AE not found in keyring"
            | some rc =>
              if rc.status ≠ "trusted" then .httpError 403 "AE not trusted"
              else if !canPublish env.producer env.subject
                  (effectiveRoles rc.roles claims.roles) then
                .httpError 403 "Publish not allowed by policy"
              else if !ed25519Verify rc.pubkeyB64 env.sig env then
                .httpError 400 "Invalid signature"
              else .accepted env.subject now

/-! ## `routes/subscribe.py` — SSE egress -/

/-- The outcome of the subscribe handler: an `HTTPException` or the
`StreamingResponse` SSE stream. -/
inductive SubscribeResponse : Type
  | httpError (code : Nat) (detail : String)
  | sseStream
  deriving DecidableEq, Repr

/-- Source `subscribers.setdefault(topic, set()).add(queue)`: the per-topic
set of subscriber queues, tracked by size (each request allocates a
fresh queue). -/
def registerQueue (subs : AList Nat) (topic : String) : AList Nat :=
  alInsert topic ((alGet topic subs).getD 0 + 1) subs

/-- Source `subscribe_topic` of `routes/subscribe.py`.  The handler takes the
request and path topic, builds the merged heartbeat/message generator
and returns the `StreamingResponse`; the fresh queue is registered on
the subscriber map when the stream starts.  The handler reads no
authorization header and consults neither keyring nor policy, so the
header argument is unused. -/
def subscribeTopic (authorization : Option String) (topic : String)
    (subs : AList Nat) : SubscribeResponse × AList Nat :=
  (SubscribeResponse.sseStream, registerQueue subs topic)

/-! ## `routes/register.py` — the `/verify` handler -/

/-- The outcome of the `/verify` handler: an uncaught `RuntimeError`
(raised before the handler enters its `try` block, so it escapes the
handler and the framework answers HTTP 500), an `HTTPException`, or a
plain dict return, which FastAPI serves with HTTP status 200. -/
inductive VerifyResponse : Type
  | runtimeError (msg : String)
  | httpError (code : Nat) (detail : String)
  | okBody (aeId : String) (verified : Bool) (reason : String)
  deriving DecidableEq, Repr

/-- Source `verify_response` of `routes/register.py`: first the guard
`if session_manager is None: raise RuntimeError(...)` — the module
global `session_manager` starts as `None` and is assigned only by the
startup handler's route injections, so `sessionManagerInjected` says
whether that assignment ever ran; then reject 403 when the key record
is missing or revoked; then ask the admission service to verify the
signed nonce and return `{verified: false, reason}` (HTTP 200) on
failure, else create the session, refresh token and access JWT and
return the verified grant (HTTP 200).  `getKey` is
`keyring.get_key` and `admissionVerify` is
`AdmissionService.verify_response`, both external packages passed as
deciders; the issued session artifacts are outside the claim and are
dropped from the body. -/
def verifyResponseRoute (aeId : String) (signedNonceB64 : String)
    (sessionManagerInjected : Bool)
    (getKey : String → Option KeyRec)
    (admissionVerify : String → String → Bool × String) : VerifyResponse :=
  if !sessionManagerInjected then
    .runtimeError "SessionManager not initialized in register route"
  else
    match getKey aeId with
    | none => .httpError 403 "AE not allowed"
    | some rc =>
      if rc.status == "revoked" then .httpError 403 "AE not allowed"
      else
        let v := admissionVerify aeId signedNonceB64
        if !v.1 then .okBody aeId false v.2
        else .okBody aeId true "verified"

/-! ## `main.py` startup — statement model -/

/-- The parameter names `ABIState.__init__` accepts
(`abi_state.py`). -/
def abiStateInitParams : List String :=
  ["keyring", "session_manager", "bus", "policy"]

/-- The keyword arguments the `startup` handler passes to `ABIState`
(`main.py`). -/
def startupAbiStateKwargs : List String :=
  ["keyring", "session_manager", "spp", "bus", "policy"]

/-- Python call semantics: a call with a keyword argument the callee
does not declare (and no `**kwargs`) raises `TypeError`. -/
def kwargsUnexpected (params kwargs : List String) : Bool :=
  kwargs.any (fun k => !(params.contains k))

/-- The top-level statements of the `startup` handler, in source
order. -/
inductive StartupStmt : Type
  | createReflectionStore
  | createReflectionSink
  | loadSppStmt
  | subscribeSinkTopics
  | setMainLoopStmt
  | createSessionManager
  | constructAbiState
  | logSppAttached
  | startSweeper
  | injectRoutes
  | startPolicyWatcher
  deriving DecidableEq, Repr

/-- The statements of `startup` in source order. -/
def startupStmts : List StartupStmt :=
  [.createReflectionStore, .createReflectionSink, .loadSppStmt, .subscribeSinkTopics,
   .setMainLoopStmt, .createSessionManager, .constructAbiState, .logSppAttached,
   .startSweeper, .injectRoutes, .startPolicyWatcher]

/-- Whether a statement raises: only the `ABIState(...)` construction
can, by the keyword-argument rule. -/
def startupStmtRaises : StartupStmt → Bool
  | .constructAbiState => kwargsUnexpected abiStateInitParams startupAbiStateKwargs
  | _ => false

/-- The statements of `startup` that run to completion: an exception
ends the handler, so execution is the longest raise-free prefix. -/
def startupExecutedStmts : List StartupStmt :=
  startupStmts.takeWhile (fun s => !startupStmtRaises s)

/-! ## Reflection data flow (`abi_state.py`, `bus.py`,
`reflection/sink.py`) -/

/-- The payload keys `ReflectionSink._normalize` reads off a bus
message that matter to the verified properties: `payload.get("ae_id")`,
`payload.get("session_id")`, `payload.get("ts", now)`.  For the raw
envelope dict that `emit` fans out, the first two keys are absent. -/
structure BusMsg where
  aeId : Option String
  sessionId : Option String
  ts : Int
  deriving DecidableEq, Repr

/-- Correlation block of a `ReflectionRecord`. -/
structure Correlation where
  aeId : Option String
  sessionId : Option String
  confidence : String
  deriving DecidableEq, Repr

/-- A reflection record as the sink appends it (fields the verified
properties read). -/
structure ReflectionRecord where
  domain : String
  eventType : String
  ts : Int
  correlation : Correlation
  deriving DecidableEq, Repr

/-- Source `ReflectionSink._normalize(topic, payload)`. -/
def sinkNormalize (topic : String) (payload : BusMsg) : Option ReflectionRecord :=
  let correlation : Correlation :=
    ⟨payload.aeId, payload.sessionId, if payload.aeId.isSome then "high" else "low"⟩
  if topic == "ae.runtime" then some ⟨"runtime", topic, payload.ts, correlation⟩
  else if topic == "abi.runtime.transition" then some ⟨"abi", topic, payload.ts, correlation⟩
  else none

/-- The topics the startup handler subscribes the reflection sink to
(each handler fires only when its registered topic equals the published
topic; neither is the wildcard). -/
def sinkTopics : List String := ["ae.runtime", "abi.runtime.transition"]

/-- The records the sink appends when an `EventBus.publish (topic, msg)`
is actually awaited: each sink registration whose topic matches
normalizes and appends. -/
def busPublishSinkRecords (topic : String) (msg : BusMsg) : List ReflectionRecord :=
  (sinkTopics.filter (fun t => t == topic)).filterMap (fun t => sinkNormalize t msg)

/-- Source `EventBus.publish` is `async def`: calling it builds a coroutine.
Its deliveries run only when the coroutine is awaited. -/
structure BusCoroutine where
  topic : String
  message : BusMsg
  deriving DecidableEq, Repr

/-- Calling `bus.publish(topic, msg)` (no delivery yet). -/
def eventBusPublishCall (topic : String) (msg : BusMsg) : BusCoroutine :=
  ⟨topic, msg⟩

/-- Awaiting the coroutine: the deliveries run and the sink appends. -/
def awaitBusPublish (c : BusCoroutine) : List ReflectionRecord :=
  busPublishSinkRecords c.topic c.message

/-- Source `ABIState._emit_runtime_event`: the source calls
`self.bus.publish("ae.runtime", event)` without `await`; the coroutine
is discarded, so its deliveries never run and nothing is appended. -/
def abiEmitRuntimeEvent (event : BusMsg) : List ReflectionRecord :=
  let _ := eventBusPublishCall "ae.runtime" event
  []

/-- Source `ABIState._on_runtime_transition`: likewise calls
`self.bus.publish(topic, evt)` without `await`; the coroutine is
discarded. -/
def abiOnRuntimeTransition (evt : BusMsg) : List ReflectionRecord :=
  let _ := eventBusPublishCall "abi.runtime.transition" evt
  []

/-- The reflection records appended by `ABIState.heartbeat(ae_id,
session_id, source)`: the registry transition hook (when a transition
fires) plus the `ae.runtime` heartbeat event, both through the
un-awaited publish. -/
def abiStateHeartbeatRecords (aeId : String) (sessionId : Option String)
    (now : Int) (hadTransition : Bool) : List ReflectionRecord :=
  (if hadTransition then abiOnRuntimeTransition ⟨some aeId, sessionId, now⟩ else []) ++
  abiEmitRuntimeEvent ⟨some aeId, sessionId, now⟩

/-- Whether the running service ever injects `abi_state` into the emit
route: true exactly when the startup statement that performs the
injection completes. -/
def abiStateInjectedInService : Bool :=
  startupExecutedStmts.contains .injectRoutes

/-- Whether the running service ever assigns
`register.session_manager`: that assignment is part of the same
startup route-injection statements, so it runs exactly when they
complete. -/
def sessionManagerInjectedInService : Bool :=
  startupExecutedStmts.contains .injectRoutes

/-- The raw envelope dict `emit` fans out on the local bus, projected to
the keys the sink reads: it has no `ae_id` or `session_id` key. -/
def envelopeBusMsg (env : Envelope) : BusMsg :=
  ⟨none, none, env.ts⟩

/-- All reflection records appended in consequence of one accepted emit:
the heartbeat path (only when `abi_state` was injected; its publishes
are un-awaited) followed by the awaited local fan-out
`await bus.publish(env.subject, raw)`. -/
def emitAcceptedReflectionRecords (env : Envelope) (claims : Claims)
    (abiInjected : Bool) (hadTransition : Bool) (now : Int) : List ReflectionRecord :=
  (if abiInjected then abiStateHeartbeatRecords claims.sub claims.sid now hadTransition
   else []) ++
  awaitBusPublish (eventBusPublishCall env.subject (envelopeBusMsg env))

/-! ## Association-list lemmas -/

theorem alGet_insert_self {α : Type} (k : String) (v : α) (l : AList α) :
    alGet k (alInsert k v l) = some v := by
  induction l with
  | nil => simp [alInsert, alGet]
  | cons kv t ih =>
    by_cases h : kv.1 = k
    · simp [alInsert, h, alGet]
    · simp [alInsert, h, alGet, ih]

theorem alGet_insert_ne {α : Type} (j k : String) (v : α) (l : AList α) (hjk : j ≠ k) :
    alGet j (alInsert k v l) = alGet j l := by
  have hkj : k ≠ j := Ne.symm hjk
  induction l with
  | nil => simp [alInsert, alGet, hkj]
  | cons kv t ih =>
    by_cases h : kv.1 = k
    · subst h
      have hj : kv.1 ≠ j := fun hc => hkj ((rfl : kv.1 = kv.1) ▸ hc)
      simp [alInsert, alGet, hj, hkj]
    · by_cases hj : kv.1 = j
      · simp [alInsert, alGet, h, hj, hjk, hkj]
      · simp [alInsert, alGet, h, hj, ih]

theorem alGet_pop_self {α : Type} (k : String) (l : AList α) :
    alGet k (alPop k l) = none := by
  induction l with
  | nil => simp [alPop, alGet]
  | cons kv t ih =>
    by_cases h : kv.1 = k
    · simpa [alPop, List.filter_cons, h] using ih
    · simpa [alPop, alGet, List.filter_cons, h] using ih

theorem alGet_pop_ne {α : Type} (j k : String) (l : AList α) (hjk : j ≠ k) :
    alGet j (alPop k l) = alGet j l := by
  have hkj : k ≠ j := Ne.symm hjk
  induction l with
  | nil => simp [alPop, alGet]
  | cons kv t ih =>
    by_cases h : kv.1 = k
    · have hj : kv.1 ≠ j := fun hc => hjk ((h ▸ hc : k = j).symm ▸ rfl)
      simpa [alPop, alGet, List.filter_cons, h, hj, hjk, hkj] using ih
    · by_cases hj : kv.1 = j
      · simp [alPop, alGet, List.filter_cons, h, hj, hjk, hkj]
      · simpa [alPop, alGet, List.filter_cons, h, hj, hjk, hkj] using ih

theorem alGet_eq_some_mem {α : Type} {k : String} {v : α} {l : AList α}
    (h : alGet k l = some v) : (k, v) ∈ l := by
  induction l with
  | nil => simp [alGet] at h
  | cons kv t ih =>
    obtain ⟨a, b⟩ := kv
    by_cases hk : a = k
    · subst hk
      simp only [alGet, if_pos] at h
      cases h
      exact List.mem_cons_self _ _
    · simp only [alGet, hk, if_neg, not_false_iff] at h
      exact List.mem_cons_of_mem _ (ih h)

theorem alHasKey_of_mem {α : Type} {k : String} {v : α} {l : AList α}
    (h : (k, v) ∈ l) : alHasKey k l = true := by
  induction l with
  | nil => simp at h
  | cons kv t ih =>
    rcases List.mem_cons.mp h with h0 | h0
    · simp [alHasKey, alGet, ← h0]
    · by_cases hk : kv.1 = k
      · simp [alHasKey, alGet, hk]
      · simpa [alHasKey, alGet, hk] using ih h0

theorem exists_mem_of_alHasKey {α : Type} {k : String} {l : AList α}
    (h : alHasKey k l = true) : ∃ v, (k, v) ∈ l := by
  unfold alHasKey at h
  cases hg : alGet k l with
  | none => rw [hg] at h; simp at h
  | some v => exact ⟨v, alGet_eq_some_mem hg⟩

theorem alNodup_cons {α : Type} {kv : String × α} {t : AList α}
    (h : alNodup (kv :: t) = true) : alHasKey kv.1 t = false ∧ alNodup t = true := by
  simp only [alNodup, Bool.and_eq_true, Bool.not_eq_true'] at h
  exact h

theorem alNodup_unique {α : Type} {k : String} {v1 v2 : α} {l : AList α}
    (hn : alNodup l = true) (h1 : (k, v1) ∈ l) (h2 : (k, v2) ∈ l) : v1 = v2 := by
  induction l with
  | nil => simp at h1
  | cons kv t ih =>
    obtain ⟨hhead, htail⟩ := alNodup_cons hn
    rcases List.mem_cons.mp h1 with e1 | e1 <;> rcases List.mem_cons.mp h2 with e2 | e2
    · rw [← e1] at e2; exact congrArg Prod.snd e2.symm
    · exfalso
      have : alHasKey kv.1 t = true := by
        have : (kv.1, v2) ∈ t := by
          have hk : kv.1 = k := by rw [← e1]
          rw [hk]; exact e2
        exact alHasKey_of_mem this
      rw [hhead] at this; simp at this
    · exfalso
      have : alHasKey kv.1 t = true := by
        have hk : kv.1 = k := by rw [← e2]
        rw [hk]; exact alHasKey_of_mem e1
      rw [hhead] at this; simp at this
    · exact ih htail e1 e2

theorem alGet_of_mem_nodup {α : Type} {k : String} {v : α} {l : AList α}
    (hn : alNodup l = true) (h : (k, v) ∈ l) : alGet k l = some v := by
  induction l with
  | nil => simp at h
  | cons kv t ih =>
    obtain ⟨hhead, htail⟩ := alNodup_cons hn
    rcases List.mem_cons.mp h with e | e
    · have h1 : kv.1 = k := by rw [← e]
      have h2 : kv.2 = v := by rw [← e]
      simp [alGet, h1, h2]
    · by_cases hk : kv.1 = k
      · exfalso
        have : alHasKey kv.1 t = true := by rw [hk]; exact alHasKey_of_mem e
        rw [hhead] at this; simp at this
      · simp [alGet, hk, ih htail e]

theorem alGet_append {α : Type} (k : String) (a b : AList α) :
    alGet k (a ++ b) = (alGet k a).or (alGet k b) := by
  induction a with
  | nil => simp [alGet]
  | cons kv t ih =>
    by_cases h : kv.1 = k
    · simp [alGet, h]
    · simp [alGet, h, ih]

theorem alHasKey_append {α : Type} (k : String) (a b : AList α) :
    alHasKey k (a ++ b) = (alHasKey k a || alHasKey k b) := by
  unfold alHasKey
  rw [alGet_append]
  cases alGet k a <;> cases alGet k b <;> rfl

theorem alGet_filter_eq_some {α : Type} {k : String} {v : α} {p : String × α → Bool}
    {l : AList α} (h : alGet k (l.filter p) = some v) : (k, v) ∈ l ∧ p (k, v) = true := by
  have hm : (k, v) ∈ l.filter p := alGet_eq_some_mem h
  exact List.mem_filter.mp hm

theorem alHasKey_filter {α : Type} {k : String} {p : String × α → Bool} {l : AList α}
    (h : alHasKey k (l.filter p) = true) : ∃ v, (k, v) ∈ l ∧ p (k, v) = true := by
  obtain ⟨v, hv⟩ := exists_mem_of_alHasKey h
  exact ⟨v, List.mem_filter.mp hv⟩

theorem alNodup_filter {α : Type} {p : String × α → Bool} {l : AList α}
    (hn : alNodup l = true) : alNodup (l.filter p) = true := by
  induction l with
  | nil => simp [alNodup]
  | cons kv t ih =>
    obtain ⟨hhead, htail⟩ := alNodup_cons hn
    by_cases hp : p kv = true
    · have hkey : alHasKey kv.1 (t.filter p) = false := by
        cases hc : alHasKey kv.1 (t.filter p) with
        | false => rfl
        | true =>
          obtain ⟨v, hv, _⟩ := alHasKey_filter hc
          have := alHasKey_of_mem hv
          rw [hhead] at this; simp at this
      simp [List.filter, hp, alNodup, hkey, ih htail]
    · simp only [List.filter_cons, hp, if_neg, Bool.false_eq_true, not_false_iff]
      exact ih htail

theorem alNodup_append {α : Type} {a b : AList α}
    (ha : alNodup a = true) (hb : alNodup b = true) (hd : alDisj a b = true) :
    alNodup (a ++ b) = true := by
  induction a with
  | nil => simpa using hb
  | cons kv t ih =>
    obtain ⟨hhead, htail⟩ := alNodup_cons ha
    have hd0 : alHasKey kv.1 b = false := by
      have := List.all_eq_true.mp hd kv (List.mem_cons_self kv t)
      simpa using this
    have hdt : alDisj t b = true := by
      apply List.all_eq_true.mpr
      intro x hx
      exact List.all_eq_true.mp hd x (List.mem_cons_of_mem _ hx)
    have hkey : alHasKey kv.1 (t ++ b) = false := by
      rw [alHasKey_append, hhead, hd0]
      rfl
    have hstep : alNodup ((kv :: t) ++ b) = (!alHasKey kv.1 (t ++ b) && alNodup (t ++ b)) := rfl
    rw [hstep, hkey, ih htail hdt]
    rfl

theorem alDisj_hasKey {α β : Type} {a : AList α} {b : AList β} {k : String}
    (hd : alDisj a b = true) (hk : alHasKey k a = true) : alHasKey k b = false := by
  obtain ⟨v, hv⟩ := exists_mem_of_alHasKey hk
  have := List.all_eq_true.mp hd (k, v) hv
  simpa using this

theorem alDisj_intro {α β : Type} {a : AList α} {b : AList β}
    (h : ∀ k v, (k, v) ∈ a → alHasKey k b = false) : alDisj a b = true := by
  apply List.all_eq_true.mpr
  intro kv hkv
  simpa using h kv.1 kv.2 hkv

/-! ## C10 — the startup handler dies at the `ABIState` construction -/

/-- C10: every execution of the FastAPI `startup` handler raises
`TypeError` at the `ABIState` construction, because `main.py` passes
the keyword argument `spp=` while `ABIState.__init__` accepts only
`(keyring, session_manager, bus, policy)`; the statements after the
construction — the route injections, starting the runtime sweeper and
starting the policy watcher — never execute on that path. -/
theorem startup_raises_typeError_at_abiState :
    kwargsUnexpected abiStateInitParams startupAbiStateKwargs = true ∧
    startupStmtRaises .constructAbiState = true ∧
    startupExecutedStmts =
      [.createReflectionStore, .createReflectionSink, .loadSppStmt, .subscribeSinkTopics,
       .setMainLoopStmt, .createSessionManager] ∧
    StartupStmt.injectRoutes ∉ startupExecutedStmts ∧
    StartupStmt.startSweeper ∉ startupExecutedStmts ∧
    StartupStmt.startPolicyWatcher ∉ startupExecutedStmts := by
  decide

/-! ## C1 — the subscribe route performs no authentication -/

/-- C1 counterexample: a `GET /subscribe/fused.track` request with no
bearer token at all is not rejected with 401 or 403; the handler
returns the SSE stream and a fresh subscriber queue is registered, so
the claimed verify-then-gate behaviour does not exist.  A request with
a syntactically invalid token behaves identically. -/
theorem subscribe_without_token_gets_stream :
    subscribeTopic none "fused.track" [] =
      (SubscribeResponse.sseStream, [("fused.track", 1)]) ∧
    subscribeTopic (some "Bearer not-a-jwt") "fused.track" [] =
      (SubscribeResponse.sseStream, [("fused.track", 1)]) := by
  decide

/-- C1 amended: `subscribe_topic` performs no token verification and no
keyring-trust or `can_subscribe` policy check; for every request —
whatever the authorization header — it returns the SSE stream and
registers exactly one fresh subscriber queue for the topic, and it
never answers 401 or 403. -/
theorem subscribe_streams_unconditionally (authorization : Option String)
    (topic : String) (subs : AList Nat) :
    (subscribeTopic authorization topic subs).1 = SubscribeResponse.sseStream ∧
    (subscribeTopic authorization topic subs).2 = registerQueue subs topic ∧
    alGet topic (registerQueue subs topic) = some ((alGet topic subs).getD 0 + 1) := by
  refine ⟨rfl, rfl, ?_⟩
  exact alGet_insert_self topic _ subs

/-! ## C6 — `/verify` never answers 403 as wired, and the handler
answers 200 on a failed nonce verification -/

/-- C6 counterexample: in the service as wired, startup never assigns
`register.session_manager` (it dies at the `ABIState` construction),
so a `/verify` request naming a known AE whose key record is *revoked*
hits the `RuntimeError` guard and is answered 500 — not the 403 the
claim requires; and even at handler level, with a session manager
injected, a known non-revoked AE whose signed nonce fails verification
is answered with a plain dict (HTTP 200) carrying `verified = false`
and the failure reason — the 200 answer the claim forbids. -/
theorem verify_answers_500_as_wired_and_200_on_bad_sig :
    sessionManagerInjectedInService = false ∧
    verifyResponseRoute "rev_ae" "nonce-b64" sessionManagerInjectedInService
      (fun a => if a == "rev_ae"
        then some ⟨"rev_ae", "pk", "fp", "producer", "revoked"⟩ else none)
      (fun _ _ => (true, "verified")) =
      VerifyResponse.runtimeError "SessionManager not initialized in register route" ∧
    verifyResponseRoute "fusion_ae" "nonce-b64" true
      (fun a => if a == "fusion_ae"
        then some ⟨"fusion_ae", "pk", "fp", "producer", "trusted"⟩ else none)
      (fun _ _ => (false, "bad-signature")) =
      VerifyResponse.okBody "fusion_ae" false "bad-signature" := by
  decide

/-- C6 amended: as the service is wired, `register.session_manager` is
never injected (startup raises before the route injections), so every
`/verify` request — revoked key or bad signature included — raises the
`RuntimeError` guard and is answered 500, never 403; at the handler
level, with a session manager injected, a missing or revoked key
record is answered 403, a failed nonce verification for a known
non-revoked AE is answered HTTP 200 with `{verified: false, reason}`,
and a 200 with `verified = true` is sent only when the admission check
succeeds. -/
theorem verify_response_status_characterization (aeId nonce : String)
    (getKey : String → Option KeyRec)
    (admissionVerify : String → String → Bool × String) :
    (verifyResponseRoute aeId nonce sessionManagerInjectedInService getKey admissionVerify =
      VerifyResponse.runtimeError "SessionManager not initialized in register route") ∧
    (getKey aeId = none →
      verifyResponseRoute aeId nonce true getKey admissionVerify =
        VerifyResponse.httpError 403 "AE not allowed") ∧
    (∀ rc, getKey aeId = some rc → rc.status = "revoked" →
      verifyResponseRoute aeId nonce true getKey admissionVerify =
        VerifyResponse.httpError 403 "AE not allowed") ∧
    (∀ rc reason, getKey aeId = some rc → rc.status ≠ "revoked" →
      admissionVerify aeId nonce = (false, reason) →
      verifyResponseRoute aeId nonce true getKey admissionVerify =
        VerifyResponse.okBody aeId false reason) ∧
    (∀ rc reason, getKey aeId = some rc → rc.status ≠ "revoked" →
      admissionVerify aeId nonce = (true, reason) →
      verifyResponseRoute aeId nonce true getKey admissionVerify =
        VerifyResponse.okBody aeId true "verified") := by
  refine ⟨rfl, ?_, ?_, ?_, ?_⟩
  · intro h
    simp [verifyResponseRoute, h]
  · intro rc hget hrev
    simp [verifyResponseRoute, hget, hrev]
  · intro rc reason hget hrev hadm
    have hb : (rc.status == "revoked") = false := by
      simpa using hrev
    simp [verifyResponseRoute, hget, hb, hadm]
  · intro rc reason hget hrev hadm
    have hb : (rc.status == "revoked") = false := by
      simpa using hrev
    simp [verifyResponseRoute, hget, hb, hadm]

/-- C6 amended, witnessed at concrete inputs: as wired, a revoked
record is answered with the uncaught `RuntimeError`; with a session
manager injected, a revoked record yields 403 and a failed
verification for a trusted record yields the 200 body. -/
theorem verify_response_status_witness :
    verifyResponseRoute "rev_ae" "n1" sessionManagerInjectedInService
        (fun _ => some ⟨"rev_ae", "pk", "fp", "producer", "revoked"⟩)
        (fun _ _ => (true, "verified")) =
      VerifyResponse.runtimeError "SessionManager not initialized in register route" ∧
    verifyResponseRoute "rev_ae" "n1" true
        (fun _ => some ⟨"rev_ae", "pk", "fp", "producer", "revoked"⟩)
        (fun _ _ => (true, "verified")) =
      VerifyResponse.httpError 403 "AE not allowed" ∧
    verifyResponseRoute "ok_ae" "n2" true
        (fun _ => some ⟨"ok_ae", "pk", "fp", "producer", "trusted"⟩)
        (fun _ _ => (false, "bad-signature")) =
      VerifyResponse.okBody "ok_ae" false "bad-signature" := by
  refine ⟨?_, ?_, ?_⟩
  · exact (verify_response_status_characterization "rev_ae" "n1"
      (fun _ => some ⟨"rev_ae", "pk", "fp", "producer", "revoked"⟩)
      (fun _ _ => (true, "verified"))).1
  · exact (verify_response_status_characterization "rev_ae" "n1"
      (fun _ => some ⟨"rev_ae", "pk", "fp", "producer", "revoked"⟩)
      (fun _ _ => (true, "verified"))).2.2.1
      ⟨"rev_ae", "pk", "fp", "producer", "revoked"⟩ rfl rfl
  · exact (verify_response_status_characterization "ok_ae" "n2"
      (fun _ => some ⟨"ok_ae", "pk", "fp", "producer", "trusted"⟩)
      (fun _ _ => (false, "bad-signature"))).2.2.2.1
      ⟨"ok_ae", "pk", "fp", "producer", "trusted"⟩ "bad-signature" rfl (by decide) rfl

/-! ## C4 — rotation re-anchors the lifetime window at `now` -/

/-- C4 counterexample: rotating at `now = 1500` a refresh token created
at 1000 and expiring at 2000 yields a new token with
`expires_at = 2500 = now + (2000 - 1000)`, not the claimed
`old.expires_at = 2000`; the remaining window is not preserved, the
full lifetime is restarted from the rotation instant. -/
theorem rotate_restarts_lifetime_window :
    (rotateRefreshToken ⟨[], [⟨"r1", "s1", "h1", 1000, 2000, false, 0, none⟩]⟩
        ⟨"r1", "s1", "h1", 1000, 2000, false, 0, none⟩ "r2" "h2" 1500).1 =
      some ⟨"r2", "s1", "h2", 1500, 2500, false, 1, none⟩ ∧
    (2500 : Int) ≠ (2000 : Int) := by
  constructor
  · rfl
  · decide

/-- C4 amended: `rotate_refresh_token(old)` revokes old with reason
`rotation` and inserts exactly one new non-revoked refresh token for
the same session with `rotation = old.rotation + 1`, whose
`created_at` is the rotation instant and whose `expires_at` is
`now + (old.expires_at - old.created_at)` — the full original lifetime
duration re-anchored at the rotation instant, not the old expiry. -/
theorem rotate_refresh_token_characterization (st : SessStore) (tok : RefreshToken)
    (newRid newHash : String) (now : Int)
    (hfresh : ∀ t ∈ st.refreshTokens, t.id ≠ newRid) :
    (rotateRefreshToken st tok newRid newHash now).1 =
      some { id := newRid, sessionId := tok.sessionId, tokenHash := newHash,
             createdAt := now, expiresAt := now + tok.expiresAt - tok.createdAt,
             revoked := false, rotation := tok.rotation + 1, reason := none } ∧
    (rotateRefreshToken st tok newRid newHash now).2.refreshTokens =
      (st.refreshTokens.map (fun t => if t.id = tok.id
          then { t with revoked := true, reason := some "rotation" } else t)) ++
      [{ id := newRid, sessionId := tok.sessionId, tokenHash := newHash,
         createdAt := now, expiresAt := now + tok.expiresAt - tok.createdAt,
         revoked := false, rotation := tok.rotation + 1, reason := none }] ∧
    (rotateRefreshToken st tok newRid newHash now).2.sessions = st.sessions := by
  refine ⟨?_, rfl, rfl⟩
  unfold rotateRefreshToken getRefreshToken revokeRefreshToken
  simp only [List.find?_append]
  have hnone : (st.refreshTokens.map (fun t => if t.id = tok.id
      then { t with revoked := true, reason := some "rotation" } else t)).find?
      (fun t => t.id == newRid) = none := by
    apply List.find?_eq_none.mpr
    intro x hx
    obtain ⟨t, ht, hxe⟩ := List.mem_map.mp hx
    have hid : x.id = t.id := by
      rw [← hxe]
      by_cases hc : t.id = tok.id <;> simp [hc]
    simp [hid, hfresh t ht]
  rw [hnone]
  simp

/-- C4 amended, witnessed: the characterization applied to a concrete
store holding the old token. -/
theorem rotate_refresh_token_witness :
    (∀ t ∈ (SessStore.mk [] [⟨"r1", "s1", "h1", 1000, 2000, false, 0, none⟩]).refreshTokens,
        t.id ≠ "r9") ∧
    (rotateRefreshToken ⟨[], [⟨"r1", "s1", "h1", 1000, 2000, false, 0, none⟩]⟩
        ⟨"r1", "s1", "h1", 1000, 2000, false, 0, none⟩ "r9" "h9" 1600).1 =
      some { id := "r9", sessionId := "s1", tokenHash := "h9",
             createdAt := 1600, expiresAt := 1600 + 2000 - 1000,
             revoked := false, rotation := 0 + 1, reason := none } :=
  ⟨by decide,
   (rotate_refresh_token_characterization
      ⟨[], [⟨"r1", "s1", "h1", 1000, 2000, false, 0, none⟩]⟩
      ⟨"r1", "s1", "h1", 1000, 2000, false, 0, none⟩ "r9" "h9" 1600 (by decide)).1⟩

/-! ## C9 — terminal session statuses are permanent -/

theorem getSession_refreshTokens_irrel (sessions : List Session)
    (tok1 tok2 : List RefreshToken) (sid : String) :
    getSession ⟨sessions, tok1⟩ sid = getSession ⟨sessions, tok2⟩ sid := rfl

theorem getSession_found_id {st : SessStore} {sid : String} {s : Session}
    (h : getSession st sid = some s) : s.id = sid := by
  have := List.find?_some h
  simpa using this

theorem getSession_map_sessions (st : SessStore) (sid : String) (f : Session → Session)
    (tok : List RefreshToken) (hf : ∀ s, (f s).id = s.id) :
    getSession ⟨st.sessions.map f, tok⟩ sid = (getSession st sid).map f := by
  unfold getSession
  rw [List.find?_map]
  have hp : ((fun s => s.id == sid) ∘ f) = (fun s => s.id == sid) := by
    funext s
    simp [Function.comp, hf s]
  rw [hp]

theorem statusOf_touch (st : SessStore) (now : Int) (sid0 sid : String) :
    sessionStatusOf (touch st now sid0) sid = sessionStatusOf st sid := by
  unfold sessionStatusOf touch
  rw [getSession_map_sessions st sid _ st.refreshTokens
      (fun s => by by_cases h : s.id = sid0 <;> simp [h])]
  cases hg : getSession st sid with
  | none => rfl
  | some s => by_cases h : s.id = sid0 <;> simp [h]

theorem statusOf_expireSession (st : SessStore) (sid0 reason sid : String) :
    sessionStatusOf (expireSession st sid0 reason) sid = sessionStatusOf st sid ∨
    sessionStatusOf (expireSession st sid0 reason) sid = some SessStatus.EXPIRED := by
  simp only [sessionStatusOf, expireSession, revokeTokensOfSession]
  rw [getSession_map_sessions st sid _ _
      (fun s => by by_cases h : s.id = sid0 <;> simp [h])]
  cases hg : getSession st sid with
  | none => left; rfl
  | some s =>
    by_cases h : s.id = sid0
    · right; simp [h]
    · left; simp [h]

theorem statusOf_revokeSession (st : SessStore) (sid0 reason sid : String) :
    sessionStatusOf (revokeSession st sid0 reason) sid = sessionStatusOf st sid ∨
    sessionStatusOf (revokeSession st sid0 reason) sid = some SessStatus.REVOKED := by
  simp only [sessionStatusOf, revokeSession, revokeTokensOfSession]
  rw [getSession_map_sessions st sid _ _
      (fun s => by by_cases h : s.id = sid0 <;> simp [h])]
  cases hg : getSession st sid with
  | none => left; rfl
  | some s =>
    by_cases h : s.id = sid0
    · right; simp [h]
    · left; simp [h]

theorem assertActive_store_cases (st : SessStore) (now : Int) (sid0 : String) :
    (assertSessionActive st now sid0).2 = st ∨
    (assertSessionActive st now sid0).2 = expireSession st sid0 "idle_timeout" ∨
    (assertSessionActive st now sid0).2 = expireSession st sid0 "session_lifetime" := by
  unfold assertSessionActive
  cases hg : getSession st sid0 with
  | none => left; rfl
  | some s =>
    dsimp only
    by_cases h1 : s.status = SessStatus.REVOKED ∨ s.status = SessStatus.EXPIRED
    · rw [if_pos h1]; left; rfl
    · rw [if_neg h1]
      by_cases h2 : s.maxIdleSec < now - s.lastSeenAt
      · rw [if_pos h2]; right; left; rfl
      · rw [if_neg h2]
        by_cases h3 : s.expiresAt < now
        · rw [if_pos h3]; right; right; rfl
        · rw [if_neg h3]; left; rfl

theorem validateRefresh_store_cases (st : SessStore) (now : Int) (sid0 hash : String) :
    (validateRefreshToken st now sid0 hash).2.sessions = st.sessions := by
  unfold validateRefreshToken
  cases hf : st.refreshTokens.find?
      (fun t => t.sessionId == sid0 && t.tokenHash == hash && !t.revoked) with
  | none => rfl
  | some t =>
    dsimp only
    by_cases he : t.expiresAt < now
    · rw [if_pos he]; rfl
    · rw [if_neg he]

/-- Every session-table mutation of `SessionManager` either leaves a
status of a session unchanged or sets it to `REVOKED` or `EXPIRED`. -/
theorem statusOf_applySessOp (st : SessStore) (op : SessOp) (sid : String) :
    sessionStatusOf (applySessOp st op) sid = sessionStatusOf st sid ∨
    sessionStatusOf (applySessOp st op) sid = some SessStatus.REVOKED ∨
    sessionStatusOf (applySessOp st op) sid = some SessStatus.EXPIRED := by
  cases op with
  | touchOp now sid0 => left; exact statusOf_touch st now sid0 sid
  | assertActiveOp now sid0 =>
    show sessionStatusOf (assertSessionActive st now sid0).2 sid = sessionStatusOf st sid ∨
      sessionStatusOf (assertSessionActive st now sid0).2 sid = some SessStatus.REVOKED ∨
      sessionStatusOf (assertSessionActive st now sid0).2 sid = some SessStatus.EXPIRED
    rcases assertActive_store_cases st now sid0 with he | he | he <;> rw [he]
    · left; rfl
    · rcases statusOf_expireSession st sid0 "idle_timeout" sid with h | h
      · left; exact h
      · right; right; exact h
    · rcases statusOf_expireSession st sid0 "session_lifetime" sid with h | h
      · left; exact h
      · right; right; exact h
  | revokeSessionOp sid0 reason =>
    rcases statusOf_revokeSession st sid0 reason sid with h | h
    · left; exact h
    · right; left; exact h
  | expireSessionOp sid0 reason =>
    rcases statusOf_expireSession st sid0 reason sid with h | h
    · left; exact h
    · right; right; exact h
  | revokeRefreshOp rid reason => left; rfl
  | validateRefreshOp now sid0 h =>
    left
    show sessionStatusOf (validateRefreshToken st now sid0 h).2 sid = sessionStatusOf st sid
    unfold sessionStatusOf getSession
    rw [validateRefresh_store_cases st now sid0 h]
  | rotateRefreshOp tok newRid newHash now => left; rfl

/-- C9: once the status of a session is `EXPIRED` or `REVOKED`, no sequence
of `SessionManager` operations (touch, assert_session_active,
revoke_session, _expire_session, refresh-token validation, rotation or
revocation) ever brings it back to `ACTIVE`: the status stays in the
terminal set for the lifetime of the row. -/
theorem session_terminal_status_permanent (st : SessStore) (sid : String)
    (ops : List SessOp)
    (h : sessionStatusOf st sid = some SessStatus.EXPIRED ∨
         sessionStatusOf st sid = some SessStatus.REVOKED) :
    sessionStatusOf (applySessOps st ops) sid = some SessStatus.EXPIRED ∨
    sessionStatusOf (applySessOps st ops) sid = some SessStatus.REVOKED := by
  induction ops generalizing st with
  | nil => exact h
  | cons op rest ih =>
    have hstep := statusOf_applySessOp st op sid
    apply ih (applySessOp st op)
    rcases hstep with he | he | he
    · rw [he]; exact h
    · right; exact he
    · left; exact he

/-- C9 witnessed: a store whose session `s1` is `REVOKED`, driven
through one operation of every kind, still reports a terminal
status. -/
theorem session_terminal_status_witness :
    (sessionStatusOf ⟨[⟨"s1", "ae1", "fp", 0, 4000, 0, SessStatus.REVOKED, 600⟩],
        [⟨"r1", "s1", "h1", 0, 4000, false, 0, none⟩]⟩ "s1" = some SessStatus.EXPIRED ∨
     sessionStatusOf ⟨[⟨"s1", "ae1", "fp", 0, 4000, 0, SessStatus.REVOKED, 600⟩],
        [⟨"r1", "s1", "h1", 0, 4000, false, 0, none⟩]⟩ "s1" = some SessStatus.REVOKED) ∧
    (sessionStatusOf (applySessOps
        ⟨[⟨"s1", "ae1", "fp", 0, 4000, 0, SessStatus.REVOKED, 600⟩],
         [⟨"r1", "s1", "h1", 0, 4000, false, 0, none⟩]⟩
        [.touchOp 100 "s1", .assertActiveOp 100 "s1", .validateRefreshOp 100 "s1" "h1",
         .rotateRefreshOp ⟨"r1", "s1", "h1", 0, 4000, false, 0, none⟩ "r2" "h2" 100,
         .expireSessionOp "s1" "cleanup", .revokeSessionOp "s1" "admin_revoke",
         .revokeRefreshOp "r2" "manual"]) "s1" = some SessStatus.EXPIRED ∨
     sessionStatusOf (applySessOps
        ⟨[⟨"s1", "ae1", "fp", 0, 4000, 0, SessStatus.REVOKED, 600⟩],
         [⟨"r1", "s1", "h1", 0, 4000, false, 0, none⟩]⟩
        [.touchOp 100 "s1", .assertActiveOp 100 "s1", .validateRefreshOp 100 "s1" "h1",
         .rotateRefreshOp ⟨"r1", "s1", "h1", 0, 4000, false, 0, none⟩ "r2" "h2" 100,
         .expireSessionOp "s1" "cleanup", .revokeSessionOp "s1" "admin_revoke",
         .revokeRefreshOp "r2" "manual"]) "s1" = some SessStatus.REVOKED) :=
  ⟨by decide,
   session_terminal_status_permanent
     ⟨[⟨"s1", "ae1", "fp", 0, 4000, 0, SessStatus.REVOKED, 600⟩],
      [⟨"r1", "s1", "h1", 0, 4000, false, 0, none⟩]⟩ "s1"
     [.touchOp 100 "s1", .assertActiveOp 100 "s1", .validateRefreshOp 100 "s1" "h1",
      .rotateRefreshOp ⟨"r1", "s1", "h1", 0, 4000, false, 0, none⟩ "r2" "h2" 100,
      .expireSessionOp "s1" "cleanup", .revokeSessionOp "s1" "admin_revoke",
      .revokeRefreshOp "r2" "manual"] (by decide)⟩

/-! ## C3 — the emit acceptance round-trip -/

/-- C3: under a valid bearer token (and with the best-effort side-effect
stages not raising, which the embedding fixes), an envelope is accepted
if and only if its producer equals the token subject, the keyring
record found for the producer (or the envelope key_id) has status
trusted, `can_publish` holds for the effective roles — the keyring
roles, falling back to the token roles — and the signature verifies
with the public key of that record. -/
theorem emit_accept_roundtrip (authorization : Option String) (tok : String)
    (verifyTok : String → Except (Nat × String) Claims) (claims : Claims)
    (env : Envelope) (kr : List KeyRec)
    (canPublish : String → String → String → Bool)
    (ed25519Verify : String → String → Envelope → Bool) (now : Int)
    (h1 : bearerTokenOf authorization = some tok)
    (h2 : verifyTok tok = Except.ok claims) :
    (emitMessage authorization verifyTok (some env) (some kr)
        canPublish ed25519Verify now).isAccepted = true ↔
      (env.producer = claims.sub ∧
       ∃ rc, lookupProducerRec kr env = some rc ∧ rc.status = "trusted" ∧
         canPublish env.producer env.subject (effectiveRoles rc.roles claims.roles) = true ∧
         ed25519Verify rc.pubkeyB64 env.sig env = true) := by
  unfold emitMessage
  rw [h1]
  dsimp only
  rw [h2]
  dsimp only
  by_cases hp : env.producer = claims.sub
  · rw [if_neg (fun hne => hne hp)]
    cases hrc : lookupProducerRec kr env with
    | none =>
      dsimp only [EmitResult.isAccepted]
      constructor
      · intro h; simp at h
      · rintro ⟨-, rc, hsome, -⟩
        simp at hsome
    | some rc =>
      dsimp only
      by_cases ht : rc.status = "trusted"
      · rw [if_neg (fun hne => hne ht)]
        by_cases hcp : canPublish env.producer env.subject
            (effectiveRoles rc.roles claims.roles) = true
        · rw [if_neg (by simp [hcp])]
          by_cases hs : ed25519Verify rc.pubkeyB64 env.sig env = true
          · rw [if_neg (by simp [hs])]
            dsimp only [EmitResult.isAccepted]
            constructor
            · intro _; exact ⟨hp, rc, rfl, ht, hcp, hs⟩
            · intro _; rfl
          · have hsf : ed25519Verify rc.pubkeyB64 env.sig env = false := by
              simpa using hs
            rw [if_pos (by simp [hsf])]
            dsimp only [EmitResult.isAccepted]
            constructor
            · intro h; simp at h
            · rintro ⟨-, rc2, hsome, -, -, hs2⟩
              obtain rfl := Option.some_inj.mp hsome
              exact absurd hs2 hs
        · have hcf : canPublish env.producer env.subject
              (effectiveRoles rc.roles claims.roles) = false := by
            simpa using hcp
          rw [if_pos (by simp [hcf])]
          dsimp only [EmitResult.isAccepted]
          constructor
          · intro h; simp at h
          · rintro ⟨-, rc2, hsome, -, hcp2, -⟩
            obtain rfl := Option.some_inj.mp hsome
            exact absurd hcp2 hcp
      · rw [if_pos ht]
        dsimp only [EmitResult.isAccepted]
        constructor
        · intro h; simp at h
        · rintro ⟨-, rc2, hsome, ht2, -⟩
          obtain rfl := Option.some_inj.mp hsome
          exact absurd ht2 ht
  · rw [if_pos hp]
    dsimp only [EmitResult.isAccepted]
    constructor
    · intro h; simp at h
    · rintro ⟨hp2, -⟩
      exact absurd hp2 hp

/-- C3 witnessed: the round-trip instantiated at a concrete accepting
request; both sides hold. -/
theorem emit_accept_roundtrip_witness :
    (emitMessage (some "Bearer t3") (fun t => if t == "t3"
        then Except.ok ⟨"fusion_ae", some "s3", "producer"⟩
        else Except.error (401, "Invalid token"))
      (some ⟨"fusion_ae", "fused.track", "p", "l", none, "sg", 50⟩)
      (some [⟨"fusion_ae", "pk", "fp", "producer", "trusted"⟩])
      (fun _ _ _ => true) (fun _ _ _ => true) 60).isAccepted = true ↔
      (("fusion_ae" : String) = "fusion_ae" ∧
       ∃ rc, lookupProducerRec [⟨"fusion_ae", "pk", "fp", "producer", "trusted"⟩]
           ⟨"fusion_ae", "fused.track", "p", "l", none, "sg", 50⟩ = some rc ∧
         rc.status = "trusted" ∧
         (fun (_ _ _ : String) => true) "fusion_ae" "fused.track"
           (effectiveRoles rc.roles "producer") = true ∧
         (fun (_ : String) (_ : String) (_ : Envelope) => true) rc.pubkeyB64 "sg"
           ⟨"fusion_ae", "fused.track", "p", "l", none, "sg", 50⟩ = true) :=
  emit_accept_roundtrip (some "Bearer t3") "t3"
    (fun t => if t == "t3" then Except.ok ⟨"fusion_ae", some "s3", "producer"⟩
      else Except.error (401, "Invalid token"))
    ⟨"fusion_ae", some "s3", "producer"⟩
    ⟨"fusion_ae", "fused.track", "p", "l", none, "sg", 50⟩
    [⟨"fusion_ae", "pk", "fp", "producer", "trusted"⟩]
    (fun _ _ _ => true) (fun _ _ _ => true) 60 (by decide) rfl

/-! ## C2 — the emit pipeline has no session gate -/

/-- C2 counterexample: a concrete emit request whose bearer token is
valid but whose session `s1` is `EXPIRED` (so
`assert_session_active("s1")` would raise) is *accepted*, not rejected
with 401: the pipeline never invokes `assert_session_active`. -/
theorem emit_accepts_despite_expired_session :
    (assertSessionActive
        ⟨[⟨"s1", "fusion_ae", "fp", 0, 4000, 0, SessStatus.EXPIRED, 600⟩], []⟩
        2000 "s1").1 = some "inactive" ∧
    emitMessage (some "Bearer t2")
      (fun t => if t == "t2" then Except.ok ⟨"fusion_ae", some "s1", "producer"⟩
        else Except.error (401, "Invalid token"))
      (some ⟨"fusion_ae", "fused.track", "p", "l", none, "sg", 1999⟩)
      (some [⟨"fusion_ae", "pk", "fp", "producer", "trusted"⟩])
      (fun _ _ _ => true) (fun _ _ _ => true) 2000 =
      EmitResult.accepted "fused.track" 2000 := by
  decide

/-- C2 amended: the emit pipeline performs no session-activity stage —
`assert_session_active` is never invoked on the emit path — so a
request whose access token is valid is decided solely by the
producer-match, keyring-trust, policy and signature stages and is
accepted even when `assert_session_active(token.sid)` fails on the
current session store (EXPIRED, REVOKED or not found). -/
theorem emit_independent_of_session_state (authorization : Option String)
    (tok : String) (verifyTok : String → Except (Nat × String) Claims)
    (claims : Claims) (env : Envelope) (kr : List KeyRec) (rc : KeyRec)
    (canPublish : String → String → String → Bool)
    (ed25519Verify : String → String → Envelope → Bool)
    (st : SessStore) (sid : String) (nowSess now : Int)
    (h1 : bearerTokenOf authorization = some tok)
    (h2 : verifyTok tok = Except.ok claims)
    (h3 : env.producer = claims.sub)
    (h4 : lookupProducerRec kr env = some rc)
    (h5 : rc.status = "trusted")
    (h6 : canPublish env.producer env.subject (effectiveRoles rc.roles claims.roles) = true)
    (h7 : ed25519Verify rc.pubkeyB64 env.sig env = true)
    (h8 : claims.sid = some sid)
    (h9 : (assertSessionActive st nowSess sid).1.isSome = true) :
    emitMessage authorization verifyTok (some env) (some kr)
        canPublish ed25519Verify now = EmitResult.accepted env.subject now := by
  unfold emitMessage
  rw [h1]
  dsimp only
  rw [h2]
  dsimp only
  rw [if_neg (by simpa using h3)]
  rw [h4]
  dsimp only
  rw [if_neg (by simpa using h5), if_neg (by simpa using h6), if_neg (by simpa using h7)]

/-- C2 amended, witnessed: applied at a concrete store whose session is
REVOKED. -/
theorem emit_independent_of_session_state_witness :
    emitMessage (some "Bearer t7")
      (fun t => if t == "t7" then Except.ok ⟨"ae7", some "s7", "producer"⟩
        else Except.error (401, "Invalid token"))
      (some ⟨"ae7", "fused.track", "p", "l", none, "sg", 70⟩)
      (some [⟨"ae7", "pk", "fp", "producer", "trusted"⟩])
      (fun _ _ _ => true) (fun _ _ _ => true) 80 =
      EmitResult.accepted "fused.track" 80 :=
  emit_independent_of_session_state (some "Bearer t7") "t7"
    (fun t => if t == "t7" then Except.ok ⟨"ae7", some "s7", "producer"⟩
      else Except.error (401, "Invalid token"))
    ⟨"ae7", some "s7", "producer"⟩
    ⟨"ae7", "fused.track", "p", "l", none, "sg", 70⟩
    [⟨"ae7", "pk", "fp", "producer", "trusted"⟩]
    ⟨"ae7", "pk", "fp", "producer", "trusted"⟩
    (fun _ _ _ => true) (fun _ _ _ => true)
    ⟨[⟨"s7", "ae7", "fp", 0, 4000, 0, SessStatus.REVOKED, 600⟩], []⟩ "s7" 100 80
    (by decide) rfl (by decide) (by decide) (by decide) (by decide)
    (by decide) (by decide) (by decide)

/-! ## C5 — accepted emits append no reflection record -/

/-- C5: on the code as written, an accepted emit appends *no*
`ae.runtime` reflection record at all.  The startup handler raises
`TypeError` before the route injections run, so `abi_state` is `None`
in the emit route and the heartbeat stage is skipped; and even where
`ABIState.heartbeat` does run, `_emit_runtime_event` and
`_on_runtime_transition` call the async `EventBus.publish` without
`await`, discarding the coroutine, so the reflection sink never
receives the heartbeat event.  The awaited local fan-out publishes on
the envelope subject, which the sink is not subscribed to. -/
theorem accepted_emit_appends_no_reflection :
    emitMessage (some "Bearer t5")
      (fun t => if t == "t5" then Except.ok ⟨"fusion_ae", some "s5", "producer"⟩
        else Except.error (401, "Invalid token"))
      (some ⟨"fusion_ae", "fused.track", "p", "l", none, "sg", 500⟩)
      (some [⟨"fusion_ae", "pk", "fp", "producer", "trusted"⟩])
      (fun _ _ _ => true) (fun _ _ _ => true) 500 =
      EmitResult.accepted "fused.track" 500 ∧
    abiStateInjectedInService = false ∧
    emitAcceptedReflectionRecords
      ⟨"fusion_ae", "fused.track", "p", "l", none, "sg", 500⟩
      ⟨"fusion_ae", some "s5", "producer"⟩ abiStateInjectedInService true 500 = [] ∧
    abiStateHeartbeatRecords "fusion_ae" (some "s5") 500 true = [] := by
  decide

/-! ## Further association-list lemmas for the runtime registry -/

theorem alNodup_insert {α : Type} {k : String} {v : α} {l : AList α}
    (hn : alNodup l = true) : alNodup (alInsert k v l) = true := by
  induction l with
  | nil => simp [alInsert, alNodup, alHasKey, alGet]
  | cons kv t ih =>
    obtain ⟨hhead, htail⟩ := alNodup_cons hn
    by_cases h : kv.1 = k
    · have hstep : alNodup (alInsert k v (kv :: t)) = (!alHasKey k t && alNodup t) := by
        simp [alInsert, h, alNodup]
      rw [hstep, ← h, hhead, htail]
      rfl
    · have hkey : alHasKey kv.1 (alInsert k v t) = false := by
        unfold alHasKey
        rw [alGet_insert_ne kv.1 k v t h]
        unfold alHasKey at hhead
        exact hhead
      have hstep : alNodup (alInsert k v (kv :: t)) =
          (!alHasKey kv.1 (alInsert k v t) && alNodup (alInsert k v t)) := by
        simp [alInsert, h, alNodup]
      rw [hstep, hkey, ih htail]
      rfl

theorem alHasKey_insert_self {α : Type} (k : String) (v : α) (l : AList α) :
    alHasKey k (alInsert k v l) = true := by
  unfold alHasKey
  rw [alGet_insert_self]
  rfl

theorem alHasKey_insert_ne {α : Type} {j k : String} (v : α) (l : AList α) (hjk : j ≠ k) :
    alHasKey j (alInsert k v l) = alHasKey j l := by
  unfold alHasKey
  rw [alGet_insert_ne j k v l hjk]

theorem alHasKey_pop_self {α : Type} (k : String) (l : AList α) :
    alHasKey k (alPop k l) = false := by
  unfold alHasKey
  rw [alGet_pop_self]
  rfl

theorem alHasKey_pop_ne {α : Type} {j k : String} (l : AList α) (hjk : j ≠ k) :
    alHasKey j (alPop k l) = alHasKey j l := by
  unfold alHasKey
  rw [alGet_pop_ne j k l hjk]

theorem alHasKey_false_not_mem {α : Type} {k : String} {v : α} {l : AList α}
    (h : alHasKey k l = false) : (k, v) ∉ l := by
  intro hmem
  rw [alHasKey_of_mem hmem] at h
  simp at h

theorem alGet_none_of_hasKey_false {α : Type} {k : String} {l : AList α}
    (h : alHasKey k l = false) : alGet k l = none := by
  unfold alHasKey at h
  cases hg : alGet k l with
  | none => rfl
  | some v => rw [hg] at h; simp at h

theorem alGet_filter_of_nodup {α : Type} {k : String} {v : α} {p : String × α → Bool}
    {l : AList α} (hn : alNodup l = true) (hm : (k, v) ∈ l) (hp : p (k, v) = true) :
    alGet k (l.filter p) = some v := by
  have hmem : (k, v) ∈ l.filter p := List.mem_filter.mpr ⟨hm, hp⟩
  exact alGet_of_mem_nodup (alNodup_filter hn) hmem

theorem alGet_filter_of_false {α : Type} {k : String} {v : α} {p : String × α → Bool}
    {l : AList α} (hn : alNodup l = true) (hm : (k, v) ∈ l) (hp : p (k, v) = false) :
    alGet k (l.filter p) = none := by
  cases hg : alGet k (l.filter p) with
  | none => rfl
  | some w =>
    obtain ⟨hw, hpw⟩ := alGet_filter_eq_some hg
    have : w = v := alNodup_unique hn hw hm
    rw [this, hp] at hpw
    simp at hpw

theorem alGet_filter_of_none {α : Type} {k : String} {p : String × α → Bool}
    {l : AList α} (h : alGet k l = none) : alGet k (l.filter p) = none := by
  cases hg : alGet k (l.filter p) with
  | none => rfl
  | some w =>
    obtain ⟨hw, -⟩ := alGet_filter_eq_some hg
    have hk := alHasKey_of_mem hw
    unfold alHasKey at hk
    rw [h] at hk
    simp at hk

theorem keyFilter_of_get {α : Type} {k : String} {v : α} {l : AList α}
    (hn : alNodup l = true) (hg : alGet k l = some v) :
    l.filter (fun kv => kv.1 == k) = [(k, v)] := by
  induction l with
  | nil => simp [alGet] at hg
  | cons kv t ih =>
    obtain ⟨hhead, htail⟩ := alNodup_cons hn
    by_cases h : kv.1 = k
    · have hv : kv.2 = v := by
        unfold alGet at hg
        rw [if_pos h] at hg
        exact Option.some_inj.mp hg
    -- the head is the unique binding; the tail holds no binding of k
      have htl : t.filter (fun kv => kv.1 == k) = [] := by
        apply List.filter_eq_nil.mpr
        intro a ha
        intro hak
        have hak2 : a.1 = k := by simpa using hak
        have hmem : (kv.1, a.2) ∈ t := by
          have he : a = (kv.1, a.2) := Prod.ext (by rw [hak2, h]) rfl
          rw [← he]
          exact ha
        have hcontra := alHasKey_of_mem hmem
        rw [hhead] at hcontra
        simp at hcontra
      have hkv : kv = (k, v) := Prod.ext h hv
      rw [List.filter_cons]
      rw [if_pos (by simp [h])]
      rw [htl, hkv]
    · have hg2 : alGet k t = some v := by
        unfold alGet at hg
        rw [if_neg h] at hg
        exact hg
      rw [List.filter_cons, if_neg (by simp [h])]
      exact ih htail hg2

theorem keyFilter_of_none {α : Type} {k : String} {l : AList α}
    (hg : alGet k l = none) : l.filter (fun kv => kv.1 == k) = [] := by
  apply List.filter_eq_nil.mpr
  intro a ha hak
  have hak2 : a.1 = k := by simpa using hak
  have hmem : (k, a.2) ∈ l := by
    have he : a = (k, a.2) := Prod.ext hak2 rfl
    rw [← he]
    exact ha
  have hcontra := alHasKey_of_mem hmem
  unfold alHasKey at hcontra
  rw [hg] at hcontra
  simp at hcontra

theorem filter_map_key (f : String × RRec → TransitionEvt)
    (hf : ∀ kv, (f kv).aeId = kv.1) (k : String) (l : AList RRec) :
    (l.map f).filter (fun e => e.aeId == k) = (l.filter (fun kv => kv.1 == k)).map f := by
  induction l with
  | nil => simp
  | cons kv t ih =>
    by_cases h : kv.1 = k
    · rw [List.map_cons, List.filter_cons, List.filter_cons,
        if_pos (by simp [hf kv, h]), if_pos (by simp [h]), List.map_cons, ih]
    · rw [List.map_cons, List.filter_cons, List.filter_cons,
        if_neg (by simp [hf kv, h]), if_neg (by simp [h]), ih]

theorem alHasKey_filter_mono {α : Type} {k : String} {p : String × α → Bool}
    {l : AList α} (h : alHasKey k (l.filter p) = true) : alHasKey k l = true := by
  obtain ⟨v, hv, -⟩ := alHasKey_filter h
  exact alHasKey_of_mem hv

theorem regWF_parts {r : Registry} (h : regWF r = true) :
    alNodup r.live = true ∧ alNodup r.stale = true ∧ alNodup r.dead = true ∧
    alDisj r.live r.stale = true ∧ alDisj r.live r.dead = true ∧
    alDisj r.stale r.dead = true := by
  unfold regWF at h
  simp only [Bool.and_eq_true] at h
  tauto

theorem regWF_intro {r : Registry}
    (h1 : alNodup r.live = true) (h2 : alNodup r.stale = true)
    (h3 : alNodup r.dead = true) (h4 : alDisj r.live r.stale = true)
    (h5 : alDisj r.live r.dead = true) (h6 : alDisj r.stale r.dead = true) :
    regWF r = true := by
  unfold regWF
  rw [h1, h2, h3, h4, h5, h6]
  rfl

theorem hasKey_staleMid {r : Registry} {now : Int} {k : String}
    (h : alHasKey k (sweepStaleMid r now) = true) :
    alHasKey k r.stale = true ∨ alHasKey k r.live = true := by
  unfold sweepStaleMid at h
  rw [alHasKey_append] at h
  simp only [Bool.or_eq_true] at h
  rcases h with h0 | h0
  · exact Or.inl h0
  · exact Or.inr (alHasKey_filter_mono h0)

theorem mem_staleMid {r : Registry} {now : Int} {k : String} {v : RRec}
    (h : (k, v) ∈ sweepStaleMid r now) :
    (k, v) ∈ r.stale ∨
    ((k, v) ∈ r.live ∧ (!decide (r.deadAfter ≤ now - v.lastSeen) &&
      decide (r.staleAfter ≤ now - v.lastSeen)) = true) := by
  unfold sweepStaleMid at h
  rcases List.mem_append.mp h with h0 | h0
  · exact Or.inl h0
  · exact Or.inr (List.mem_filter.mp h0)

theorem disj_stale_liveToStale {r : Registry} (now : Int)
    (hdLS : alDisj r.live r.stale = true) :
    alDisj r.stale (sweepLiveToStale r now) = true := by
  apply alDisj_intro
  intro k v hm
  cases hc : alHasKey k (sweepLiveToStale r now) with
  | false => rfl
  | true =>
    have hL : alHasKey k r.live = true := alHasKey_filter_mono hc
    have := alDisj_hasKey hdLS hL
    rw [alHasKey_of_mem hm] at this
    simp at this

theorem nodup_staleMid {r : Registry} (now : Int)
    (hnL : alNodup r.live = true) (hnS : alNodup r.stale = true)
    (hdLS : alDisj r.live r.stale = true) :
    alNodup (sweepStaleMid r now) = true :=
  alNodup_append hnS (alNodup_filter hnL) (disj_stale_liveToStale now hdLS)

/-- C7: at every well-formed registry state — each `ae_id` in at most
one of `live`, `stale`, `dead`, every partition a genuine dict — both
`heartbeat` (which installs the record in `live` and pops it from
`stale` and `dead`) and `sweep` (which moves each demoted record from
exactly one source partition to exactly one destination) preserve
well-formedness, so each `ae_id` stays in exactly one partition or
absent from all three. -/
theorem registry_partitions_stay_disjoint (r : Registry) (now : Int) (aeId : String)
    (sessionId : Option String) (source : String) (intent subject : Option String)
    (quality : String) (hwf : regWF r = true) :
    regWF (r.heartbeat now aeId sessionId source intent subject quality).1 = true ∧
    regWF (r.sweep now).1 = true := by
  obtain ⟨hnL, hnS, hnD, hdLS, hdLD, hdSD⟩ := regWF_parts hwf
  constructor
  · -- heartbeat
    obtain ⟨rc0, hsh⟩ :
        ∃ rc0, (r.heartbeat now aeId sessionId source intent subject quality).1 =
          { r with live := alInsert aeId rc0 r.live, stale := alPop aeId r.stale,
                   dead := alPop aeId r.dead } := ⟨_, rfl⟩
    rw [hsh]
    apply regWF_intro
    · exact alNodup_insert hnL
    · exact alNodup_filter hnS
    · exact alNodup_filter hnD
    · apply alDisj_intro
      intro k v hm
      by_cases hk : k = aeId
      · rw [hk]
        exact alHasKey_pop_self aeId r.stale
      · rw [alHasKey_pop_ne r.stale hk]
        have hkL : alHasKey k r.live = true := by
          have := alHasKey_of_mem hm
          rwa [alHasKey_insert_ne rc0 r.live hk] at this
        exact alDisj_hasKey hdLS hkL
    · apply alDisj_intro
      intro k v hm
      by_cases hk : k = aeId
      · rw [hk]
        exact alHasKey_pop_self aeId r.dead
      · rw [alHasKey_pop_ne r.dead hk]
        have hkL : alHasKey k r.live = true := by
          have := alHasKey_of_mem hm
          rwa [alHasKey_insert_ne rc0 r.live hk] at this
        exact alDisj_hasKey hdLD hkL
    · apply alDisj_intro
      intro k v hm
      obtain ⟨hms, hne⟩ := List.mem_filter.mp hm
      have hk : k ≠ aeId := by simpa using hne
      rw [alHasKey_pop_ne r.dead hk]
      exact alDisj_hasKey hdSD (alHasKey_of_mem hms)
  · -- sweep
    have hnMid := nodup_staleMid now hnL hnS hdLS
    have hDltd : alDisj r.dead (sweepLiveToDead r now) = true := by
      apply alDisj_intro
      intro k v hm
      cases hc : alHasKey k (sweepLiveToDead r now) with
      | false => rfl
      | true =>
        have hL : alHasKey k r.live = true := alHasKey_filter_mono hc
        have hx := alDisj_hasKey hdLD hL
        rw [alHasKey_of_mem hm] at hx
        simp at hx
    have hdisjDD : alDisj (r.dead ++ sweepLiveToDead r now)
        (sweepStaleToDead r now) = true := by
      apply alDisj_intro
      intro k v hm
      cases hc : alHasKey k (sweepStaleToDead r now) with
      | false => rfl
      | true =>
        exfalso
        obtain ⟨w, hwMid, hwP⟩ := alHasKey_filter hc
        rcases List.mem_append.mp hm with hmD | hmLtd
        · rcases mem_staleMid hwMid with hS | ⟨hL, -⟩
          · have hx := alDisj_hasKey hdSD (alHasKey_of_mem hS)
            rw [alHasKey_of_mem hmD] at hx
            simp at hx
          · have hx := alDisj_hasKey hdLD (alHasKey_of_mem hL)
            rw [alHasKey_of_mem hmD] at hx
            simp at hx
        · obtain ⟨hvL, hvP⟩ := List.mem_filter.mp hmLtd
          rcases mem_staleMid hwMid with hS | ⟨hwL, hwPS⟩
          · have hx := alDisj_hasKey hdLS (alHasKey_of_mem hvL)
            rw [alHasKey_of_mem hS] at hx
            simp at hx
          · have hwv : w = v := alNodup_unique hnL hwL hvL
            rw [hwv] at hwPS
            rw [Bool.and_eq_true] at hwPS
            have hcontra := hwPS.1
            rw [hvP] at hcontra
            simp at hcontra
    apply regWF_intro
    · exact alNodup_filter hnL
    · exact alNodup_filter hnMid
    · exact alNodup_append (alNodup_append hnD (alNodup_filter hnL) hDltd)
        (alNodup_filter hnMid) hdisjDD
    · -- live vs stale after the pass
      apply alDisj_intro
      intro k v hm
      obtain ⟨hvL, hvK⟩ := List.mem_filter.mp hm
      cases hc : alHasKey k (sweepStaleKeep r now) with
      | false => exact hc
      | true =>
        exfalso
        obtain ⟨w, hwMid, -⟩ := alHasKey_filter hc
        rcases mem_staleMid hwMid with hS | ⟨hwL, hwPS⟩
        · have hx := alDisj_hasKey hdLS (alHasKey_of_mem hvL)
          rw [alHasKey_of_mem hS] at hx
          simp at hx
        · have hwv : w = v := alNodup_unique hnL hwL hvL
          rw [hwv] at hwPS
          rw [Bool.and_eq_true] at hvK hwPS
          have h1 : decide (r.staleAfter ≤ now - v.lastSeen) = false := by
            simpa using hvK.2
          rw [h1] at hwPS
          simp at hwPS
    · -- live vs dead after the pass
      apply alDisj_intro
      intro k v hm
      obtain ⟨hvL, hvK⟩ := List.mem_filter.mp hm
      cases hc : alHasKey k
          (r.dead ++ sweepLiveToDead r now ++ sweepStaleToDead r now) with
      | false => exact hc
      | true =>
        exfalso
        rw [alHasKey_append, alHasKey_append] at hc
        simp only [Bool.or_eq_true] at hc
        rcases hc with (hD | hltd) | hstd
        · have hx := alDisj_hasKey hdLD (alHasKey_of_mem hvL)
          rw [hD] at hx
          simp at hx
        · obtain ⟨w, hwL, hwP⟩ := alHasKey_filter hltd
          have hwv : w = v := alNodup_unique hnL hwL hvL
          rw [hwv] at hwP
          rw [Bool.and_eq_true] at hvK
          have hcontra := hvK.1
          rw [hwP] at hcontra
          simp at hcontra
        · obtain ⟨w, hwMid, hwP⟩ := alHasKey_filter hstd
          rcases mem_staleMid hwMid with hS | ⟨hwL, hwPS⟩
          · have hx := alDisj_hasKey hdLS (alHasKey_of_mem hvL)
            rw [alHasKey_of_mem hS] at hx
            simp at hx
          · have hwv : w = v := alNodup_unique hnL hwL hvL
            rw [hwv] at hwPS hwP
            rw [Bool.and_eq_true] at hwPS
            have hcontra := hwPS.1
            rw [hwP] at hcontra
            simp at hcontra
    · -- stale vs dead after the pass
      apply alDisj_intro
      intro k v hm
      obtain ⟨hvMid, hvKeep⟩ := List.mem_filter.mp hm
      cases hc : alHasKey k
          (r.dead ++ sweepLiveToDead r now ++ sweepStaleToDead r now) with
      | false => exact hc
      | true =>
        exfalso
        rw [alHasKey_append, alHasKey_append] at hc
        simp only [Bool.or_eq_true] at hc
        rcases hc with (hD | hltd) | hstd
        · rcases mem_staleMid hvMid with hS | ⟨hvL, -⟩
          · have hx := alDisj_hasKey hdSD (alHasKey_of_mem hS)
            rw [hD] at hx
            simp at hx
          · have hx := alDisj_hasKey hdLD (alHasKey_of_mem hvL)
            rw [hD] at hx
            simp at hx
        · obtain ⟨w, hwL, hwP⟩ := alHasKey_filter hltd
          rcases mem_staleMid hvMid with hS | ⟨hvL, hvPS⟩
          · have hx := alDisj_hasKey hdLS (alHasKey_of_mem hwL)
            rw [alHasKey_of_mem hS] at hx
            simp at hx
          · have hwv : w = v := alNodup_unique hnL hwL hvL
            rw [hwv] at hwP
            rw [hwP] at hvKeep
            simp at hvKeep
        · obtain ⟨w, hwMid, hwP⟩ := alHasKey_filter hstd
          have hwv : w = v := alNodup_unique hnMid hwMid hvMid
          rw [hwv] at hwP
          rw [hwP] at hvKeep
          simp at hvKeep

/-- C7 witnessed: a concrete well-formed registry stays well-formed
through a heartbeat and a sweep. -/
theorem registry_partitions_stay_disjoint_witness :
    regWF ⟨30, 120, [("a", ⟨0, 100, none, "emit", none, none, "normal", 1⟩)],
      [("b", ⟨0, 10, none, "emit", none, none, "normal", 2⟩)],
      [("c", ⟨0, 1, none, "emit", none, none, "normal", 3⟩)]⟩ = true ∧
    regWF ((Registry.heartbeat ⟨30, 120, [("a", ⟨0, 100, none, "emit", none, none, "normal", 1⟩)],
      [("b", ⟨0, 10, none, "emit", none, none, "normal", 2⟩)],
      [("c", ⟨0, 1, none, "emit", none, none, "normal", 3⟩)]⟩
        140 "b" (some "s1") "emit" none none "normal").1) = true ∧
    regWF ((Registry.sweep ⟨30, 120, [("a", ⟨0, 100, none, "emit", none, none, "normal", 1⟩)],
      [("b", ⟨0, 10, none, "emit", none, none, "normal", 2⟩)],
      [("c", ⟨0, 1, none, "emit", none, none, "normal", 3⟩)]⟩ 140).1) = true :=
  ⟨by decide,
   (registry_partitions_stay_disjoint
      ⟨30, 120, [("a", ⟨0, 100, none, "emit", none, none, "normal", 1⟩)],
        [("b", ⟨0, 10, none, "emit", none, none, "normal", 2⟩)],
        [("c", ⟨0, 1, none, "emit", none, none, "normal", 3⟩)]⟩
      140 "b" (some "s1") "emit" none none "normal" (by decide)).1,
   (registry_partitions_stay_disjoint
      ⟨30, 120, [("a", ⟨0, 100, none, "emit", none, none, "normal", 1⟩)],
        [("b", ⟨0, 10, none, "emit", none, none, "normal", 2⟩)],
        [("c", ⟨0, 1, none, "emit", none, none, "normal", 3⟩)]⟩
      140 "b" (some "s1") "emit" none none "normal" (by decide)).2⟩

/-! ## C8 — what one sweep pass does -/

/-- C8: one `sweep()` pass at time `now` over a well-formed registry
with `stale_after < dead_after` moves every live entry aged at least
`dead_after` to `dead`, moves every remaining live entry aged at least
`stale_after` to `stale`, moves every stale entry aged at least
`dead_after` to `dead`, leaves every entry younger than `stale_after`
(and every stale entry younger than `dead_after`) where it was, and
emits exactly one transition event per demotion carrying the
corresponding from-state and to-state (and none for entries not
demoted). -/
theorem sweep_characterization (r : Registry) (now : Int)
    (hwf : regWF r = true) (hsd : r.staleAfter < r.deadAfter) :
    (∀ k rc, alGet k r.live = some rc → r.deadAfter ≤ now - rc.lastSeen →
      alGet k (r.sweep now).1.dead = some rc ∧
      alGet k (r.sweep now).1.live = none ∧
      alGet k (r.sweep now).1.stale = none ∧
      (r.sweep now).2.filter (fun e => e.aeId == k) =
        [⟨k, "live", "dead", "sweep_dead", rc⟩]) ∧
    (∀ k rc, alGet k r.live = some rc → now - rc.lastSeen < r.deadAfter →
      r.staleAfter ≤ now - rc.lastSeen →
      alGet k (r.sweep now).1.stale = some rc ∧
      alGet k (r.sweep now).1.live = none ∧
      alGet k (r.sweep now).1.dead = none ∧
      (r.sweep now).2.filter (fun e => e.aeId == k) =
        [⟨k, "live", "stale", "sweep_stale", rc⟩]) ∧
    (∀ k rc, alGet k r.stale = some rc → r.deadAfter ≤ now - rc.lastSeen →
      alGet k (r.sweep now).1.dead = some rc ∧
      alGet k (r.sweep now).1.stale = none ∧
      alGet k (r.sweep now).1.live = none ∧
      (r.sweep now).2.filter (fun e => e.aeId == k) =
        [⟨k, "stale", "dead", "sweep_dead", rc⟩]) ∧
    (∀ k rc, alGet k r.live = some rc → now - rc.lastSeen < r.staleAfter →
      alGet k (r.sweep now).1.live = some rc ∧
      (r.sweep now).2.filter (fun e => e.aeId == k) = []) ∧
    (∀ k rc, alGet k r.stale = some rc → now - rc.lastSeen < r.deadAfter →
      alGet k (r.sweep now).1.stale = some rc ∧
      (r.sweep now).2.filter (fun e => e.aeId == k) = []) := by
  obtain ⟨hnL, hnS, hnD, hdLS, hdLD, hdSD⟩ := regWF_parts hwf
  have hnMid := nodup_staleMid now hnL hnS hdLS
  have hLfalse : ∀ k, alHasKey k r.stale = true → alHasKey k r.live = false := by
    intro k hkS
    cases hc : alHasKey k r.live with
    | false => rfl
    | true =>
      have hx := alDisj_hasKey hdLS hc
      rw [hkS] at hx
      simp at hx
  have hliveSplit : (r.sweep now).1.live = sweepLiveKeep r now := rfl
  have hstaleSplit : (r.sweep now).1.stale = sweepStaleKeep r now := rfl
  have hdeadSplit : (r.sweep now).1.dead =
      r.dead ++ sweepLiveToDead r now ++ sweepStaleToDead r now := rfl
  have hevSplit : (r.sweep now).2 =
      (sweepLiveToStale r now).map (fun kv =>
        (⟨kv.1, "live", "stale", "sweep_stale", kv.2⟩ : TransitionEvt)) ++
      ((sweepLiveToDead r now).map (fun kv =>
        (⟨kv.1, "live", "dead", "sweep_dead", kv.2⟩ : TransitionEvt)) ++
       (sweepStaleToDead r now).map (fun kv =>
        (⟨kv.1, "stale", "dead", "sweep_dead", kv.2⟩ : TransitionEvt))) := rfl
  refine ⟨?_, ?_, ?_, ?_, ?_⟩
  · -- live, age ≥ dead_after  ⇒  dead
    intro k rc hg hage
    have hmem : (k, rc) ∈ r.live := alGet_eq_some_mem hg
    have hkL : alHasKey k r.live = true := alHasKey_of_mem hmem
    have hpD : decide (r.deadAfter ≤ now - rc.lastSeen) = true := decide_eq_true hage
    have hgdead0 : alGet k r.dead = none :=
      alGet_none_of_hasKey_false (alDisj_hasKey hdLD hkL)
    have hgstale0 : alGet k r.stale = none :=
      alGet_none_of_hasKey_false (alDisj_hasKey hdLS hkL)
    have hgltd : alGet k (sweepLiveToDead r now) = some rc := by
      unfold sweepLiveToDead
      exact alGet_filter_of_nodup hnL hmem hpD
    have hglts : alGet k (sweepLiveToStale r now) = none := by
      unfold sweepLiveToStale
      exact alGet_filter_of_false hnL hmem (by simp [hpD])
    have hgmid : alGet k (sweepStaleMid r now) = none := by
      unfold sweepStaleMid
      rw [alGet_append, hgstale0, hglts]
      rfl
    have hgstd : alGet k (sweepStaleToDead r now) = none := by
      unfold sweepStaleToDead
      exact alGet_filter_of_none hgmid
    refine ⟨?_, ?_, ?_, ?_⟩
    · rw [hdeadSplit, alGet_append, alGet_append, hgdead0, hgltd]
      rfl
    · rw [hliveSplit]
      unfold sweepLiveKeep
      exact alGet_filter_of_false hnL hmem (by simp [hpD])
    · rw [hstaleSplit]
      unfold sweepStaleKeep
      exact alGet_filter_of_none hgmid
    · rw [hevSplit, List.filter_append, List.filter_append,
        filter_map_key _ (fun kv => rfl) k, filter_map_key _ (fun kv => rfl) k,
        filter_map_key _ (fun kv => rfl) k,
        keyFilter_of_none hglts,
        keyFilter_of_get (by unfold sweepLiveToDead; exact alNodup_filter hnL) hgltd,
        keyFilter_of_none hgstd]
      simp
  · -- live, stale_after ≤ age < dead_after  ⇒  stale
    intro k rc hg hndead hstale
    have hmem : (k, rc) ∈ r.live := alGet_eq_some_mem hg
    have hkL : alHasKey k r.live = true := alHasKey_of_mem hmem
    have hpD : decide (r.deadAfter ≤ now - rc.lastSeen) = false :=
      decide_eq_false (not_le.mpr hndead)
    have hpSa : decide (r.staleAfter ≤ now - rc.lastSeen) = true := decide_eq_true hstale
    have hgdead0 : alGet k r.dead = none :=
      alGet_none_of_hasKey_false (alDisj_hasKey hdLD hkL)
    have hgstale0 : alGet k r.stale = none :=
      alGet_none_of_hasKey_false (alDisj_hasKey hdLS hkL)
    have hglts : alGet k (sweepLiveToStale r now) = some rc := by
      unfold sweepLiveToStale
      exact alGet_filter_of_nodup hnL hmem (by simp [hpD, hpSa])
    have hgltd : alGet k (sweepLiveToDead r now) = none := by
      unfold sweepLiveToDead
      exact alGet_filter_of_false hnL hmem hpD
    have hgmid : alGet k (sweepStaleMid r now) = some rc := by
      unfold sweepStaleMid
      rw [alGet_append, hgstale0, hglts]
      rfl
    have hmemMid : (k, rc) ∈ sweepStaleMid r now := alGet_eq_some_mem hgmid
    have hgstd : alGet k (sweepStaleToDead r now) = none := by
      unfold sweepStaleToDead
      exact alGet_filter_of_false hnMid hmemMid hpD
    refine ⟨?_, ?_, ?_, ?_⟩
    · rw [hstaleSplit]
      unfold sweepStaleKeep
      exact alGet_filter_of_nodup hnMid hmemMid (by simp [hpD])
    · rw [hliveSplit]
      unfold sweepLiveKeep
      exact alGet_filter_of_false hnL hmem (by simp [hpD, hpSa])
    · rw [hdeadSplit, alGet_append, alGet_append, hgdead0, hgltd, hgstd]
      rfl
    · rw [hevSplit, List.filter_append, List.filter_append,
        filter_map_key _ (fun kv => rfl) k, filter_map_key _ (fun kv => rfl) k,
        filter_map_key _ (fun kv => rfl) k,
        keyFilter_of_get (by unfold sweepLiveToStale; exact alNodup_filter hnL) hglts,
        keyFilter_of_none hgltd,
        keyFilter_of_none hgstd]
      simp
  · -- stale, age ≥ dead_after  ⇒  dead
    intro k rc hg hage
    have hmemS : (k, rc) ∈ r.stale := alGet_eq_some_mem hg
    have hkS : alHasKey k r.stale = true := alHasKey_of_mem hmemS
    have hkL : alHasKey k r.live = false := hLfalse k hkS
    have hgL : alGet k r.live = none := alGet_none_of_hasKey_false hkL
    have hpD : decide (r.deadAfter ≤ now - rc.lastSeen) = true := decide_eq_true hage
    have hgdead0 : alGet k r.dead = none :=
      alGet_none_of_hasKey_false (alDisj_hasKey hdSD hkS)
    have hglts : alGet k (sweepLiveToStale r now) = none := by
      unfold sweepLiveToStale
      exact alGet_filter_of_none hgL
    have hgltd : alGet k (sweepLiveToDead r now) = none := by
      unfold sweepLiveToDead
      exact alGet_filter_of_none hgL
    have hgmid : alGet k (sweepStaleMid r now) = some rc := by
      unfold sweepStaleMid
      rw [alGet_append, hg]
      rfl
    have hmemMid : (k, rc) ∈ sweepStaleMid r now := alGet_eq_some_mem hgmid
    have hgstd : alGet k (sweepStaleToDead r now) = some rc := by
      unfold sweepStaleToDead
      exact alGet_filter_of_nodup hnMid hmemMid hpD
    refine ⟨?_, ?_, ?_, ?_⟩
    · rw [hdeadSplit, alGet_append, alGet_append, hgdead0, hgltd, hgstd]
      rfl
    · rw [hstaleSplit]
      unfold sweepStaleKeep
      exact alGet_filter_of_false hnMid hmemMid (by simp [hpD])
    · rw [hliveSplit]
      unfold sweepLiveKeep
      exact alGet_filter_of_none hgL
    · rw [hevSplit, List.filter_append, List.filter_append,
        filter_map_key _ (fun kv => rfl) k, filter_map_key _ (fun kv => rfl) k,
        filter_map_key _ (fun kv => rfl) k,
        keyFilter_of_none hglts,
        keyFilter_of_none hgltd,
        keyFilter_of_get (by unfold sweepStaleToDead; exact alNodup_filter hnMid) hgstd]
      simp
  · -- live, age < stale_after  ⇒  unchanged, no event
    intro k rc hg hy
    have hyd : now - rc.lastSeen < r.deadAfter := lt_trans hy hsd
    have hmem : (k, rc) ∈ r.live := alGet_eq_some_mem hg
    have hkL : alHasKey k r.live = true := alHasKey_of_mem hmem
    have hpD : decide (r.deadAfter ≤ now - rc.lastSeen) = false :=
      decide_eq_false (not_le.mpr hyd)
    have hpSa : decide (r.staleAfter ≤ now - rc.lastSeen) = false :=
      decide_eq_false (not_le.mpr hy)
    have hgstale0 : alGet k r.stale = none :=
      alGet_none_of_hasKey_false (alDisj_hasKey hdLS hkL)
    have hglts : alGet k (sweepLiveToStale r now) = none := by
      unfold sweepLiveToStale
      exact alGet_filter_of_false hnL hmem (by simp [hpSa])
    have hgltd : alGet k (sweepLiveToDead r now) = none := by
      unfold sweepLiveToDead
      exact alGet_filter_of_false hnL hmem hpD
    have hgmid : alGet k (sweepStaleMid r now) = none := by
      unfold sweepStaleMid
      rw [alGet_append, hgstale0, hglts]
      rfl
    have hgstd : alGet k (sweepStaleToDead r now) = none := by
      unfold sweepStaleToDead
      exact alGet_filter_of_none hgmid
    refine ⟨?_, ?_⟩
    · rw [hliveSplit]
      unfold sweepLiveKeep
      exact alGet_filter_of_nodup hnL hmem (by simp [hpD, hpSa])
    · rw [hevSplit, List.filter_append, List.filter_append,
        filter_map_key _ (fun kv => rfl) k, filter_map_key _ (fun kv => rfl) k,
        filter_map_key _ (fun kv => rfl) k,
        keyFilter_of_none hglts,
        keyFilter_of_none hgltd,
        keyFilter_of_none hgstd]
      simp
  · -- stale, age < dead_after  ⇒  unchanged, no event
    intro k rc hg hy
    have hmemS : (k, rc) ∈ r.stale := alGet_eq_some_mem hg
    have hkS : alHasKey k r.stale = true := alHasKey_of_mem hmemS
    have hkL : alHasKey k r.live = false := hLfalse k hkS
    have hgL : alGet k r.live = none := alGet_none_of_hasKey_false hkL
    have hpD : decide (r.deadAfter ≤ now - rc.lastSeen) = false :=
      decide_eq_false (not_le.mpr hy)
    have hglts : alGet k (sweepLiveToStale r now) = none := by
      unfold sweepLiveToStale
      exact alGet_filter_of_none hgL
    have hgltd : alGet k (sweepLiveToDead r now) = none := by
      unfold sweepLiveToDead
      exact alGet_filter_of_none hgL
    have hgmid : alGet k (sweepStaleMid r now) = some rc := by
      unfold sweepStaleMid
      rw [alGet_append, hg]
      rfl
    have hmemMid : (k, rc) ∈ sweepStaleMid r now := alGet_eq_some_mem hgmid
    have hgstd : alGet k (sweepStaleToDead r now) = none := by
      unfold sweepStaleToDead
      exact alGet_filter_of_false hnMid hmemMid hpD
    refine ⟨?_, ?_⟩
    · rw [hstaleSplit]
      unfold sweepStaleKeep
      exact alGet_filter_of_nodup hnMid hmemMid (by simp [hpD])
    · rw [hevSplit, List.filter_append, List.filter_append,
        filter_map_key _ (fun kv => rfl) k, filter_map_key _ (fun kv => rfl) k,
        filter_map_key _ (fun kv => rfl) k,
        keyFilter_of_none hglts,
        keyFilter_of_none hgltd,
        keyFilter_of_none hgstd]
      simp

/-- C8 witnessed: the characterization applied to a concrete registry
whose live entry `a` is older than `dead_after` at the sweep
instant. -/
theorem sweep_characterization_witness :
    regWF (⟨30, 120, [("a", ⟨0, 5, none, "emit", none, none, "normal", 1⟩)],
      [("b", ⟨0, 10, none, "emit", none, none, "normal", 2⟩)], []⟩ : Registry) = true ∧
    ((30 : Int) < 120) ∧
    (alGet "a" ((Registry.sweep ⟨30, 120,
        [("a", ⟨0, 5, none, "emit", none, none, "normal", 1⟩)],
        [("b", ⟨0, 10, none, "emit", none, none, "normal", 2⟩)], []⟩ 140).1.dead) =
      some ⟨0, 5, none, "emit", none, none, "normal", 1⟩ ∧
     alGet "a" ((Registry.sweep ⟨30, 120,
        [("a", ⟨0, 5, none, "emit", none, none, "normal", 1⟩)],
        [("b", ⟨0, 10, none, "emit", none, none, "normal", 2⟩)], []⟩ 140).1.live) = none ∧
     alGet "a" ((Registry.sweep ⟨30, 120,
        [("a", ⟨0, 5, none, "emit", none, none, "normal", 1⟩)],
        [("b", ⟨0, 10, none, "emit", none, none, "normal", 2⟩)], []⟩ 140).1.stale) = none ∧
     (Registry.sweep ⟨30, 120,
        [("a", ⟨0, 5, none, "emit", none, none, "normal", 1⟩)],
        [("b", ⟨0, 10, none, "emit", none, none, "normal", 2⟩)], []⟩ 140).2.filter
          (fun e => e.aeId == "a") =
      [⟨"a", "live", "dead", "sweep_dead", ⟨0, 5, none, "emit", none, none, "normal", 1⟩⟩]) :=
  ⟨by decide, by decide,
   (sweep_characterization ⟨30, 120,
      [("a", ⟨0, 5, none, "emit", none, none, "normal", 1⟩)],
      [("b", ⟨0, 10, none, "emit", none, none, "normal", 2⟩)], []⟩ 140
      (by decide) (by decide)).1 "a" ⟨0, 5, none, "emit", none, none, "normal", 1⟩
      (by decide) (by decide)⟩

end Aegnix
